import Mathlib

/-!
Shallow embedding of `tiling/tiling.py` (class `Tiling`).

Images are modelled as pixel grids with a single intensity channel
(`pix x y : Nat`); the external PIL library's primitives (`crop`, `paste`,
`transpose`, `Image.new`, `Image.open`/`save`) are modelled as pure
pixel-buffer operations, and the filesystem written by `write_tiles` /
read by `assemble` is modelled as an association list of
(path, image) pairs together with a decode oracle `String → Img`.

Python exceptions are modelled by `PyError`:
`attributeError` is the `AttributeError` the code raises (the spec's
`StateError`), `valueError` is the `ValueError` raised on malformed
identifiers (the spec's `ParseError`), and `stopIteration` is the
`StopIteration` escaping from `next(rects)` (the spec's
`ExhaustedGridError`).
-/

/-- A pixel buffer: width, height, and an intensity value per coordinate.
Coordinates outside the bounds are irrelevant to every statement below. -/
structure Img where
  width : Nat
  height : Nat
  pix : Nat → Nat → Nat

/-- `Image.new(mode, (w, h))`: a blank (all-zero) canvas. -/
def Img.new (w h : Nat) : Img :=
  { width := w, height := h, pix := fun _ _ => 0 }

/-- A tile rectangle `(left, top, right, bottom)` as yielded by
`Tiling.get_tile_rects`. -/
structure TileRect where
  left : Nat
  top : Nat
  right : Nat
  bottom : Nat
deriving DecidableEq

/-- PIL `Image.crop((left, top, right, bottom))`: the region of the source,
zero-padded where the region extends outside the source. -/
def Img.crop (img : Img) (r : TileRect) : Img :=
  { width := r.right - r.left,
    height := r.bottom - r.top,
    pix := fun x y =>
      if r.left + x < img.width ∧ r.top + y < img.height then
        img.pix (r.left + x) (r.top + y)
      else 0 }

/-- PIL `canvas.paste(tile, box)` at corner `(l, t)` (the box's size always
matches the pasted image's size in the code paths modelled here); the pasted
region is clipped to the canvas, which the pixel function realises by only
ever being read inside the canvas bounds. -/
def Img.paste (canvas : Img) (tileImg : Img) (l t : Int) : Img :=
  { width := canvas.width,
    height := canvas.height,
    pix := fun x y =>
      if l ≤ (x : Int) ∧ (x : Int) < l + tileImg.width ∧
         t ≤ (y : Int) ∧ (y : Int) < t + tileImg.height then
        tileImg.pix ((x : Int) - l).toNat ((y : Int) - t).toNat
      else canvas.pix x y }

/-- PIL `transpose(Image.ROTATE_90)` (counter-clockwise). -/
def Img.rot90 (img : Img) : Img :=
  { width := img.height, height := img.width,
    pix := fun x y => img.pix (img.width - 1 - y) x }

/-- PIL `transpose(Image.ROTATE_180)`. -/
def Img.rot180 (img : Img) : Img :=
  { width := img.width, height := img.height,
    pix := fun x y => img.pix (img.width - 1 - x) (img.height - 1 - y) }

/-- PIL `transpose(Image.ROTATE_270)`. -/
def Img.rot270 (img : Img) : Img :=
  { width := img.height, height := img.width,
    pix := fun x y => img.pix y (img.height - 1 - x) }

/-- PIL `transpose(Image.FLIP_TOP_BOTTOM)` (the code's flip mode `vert`). -/
def Img.flipVert (img : Img) : Img :=
  { width := img.width, height := img.height,
    pix := fun x y => img.pix x (img.height - 1 - y) }

/-- PIL `transpose(Image.FLIP_LEFT_RIGHT)` (the code's flip mode `hor`). -/
def Img.flipHor (img : Img) : Img :=
  { width := img.width, height := img.height,
    pix := fun x y => img.pix (img.width - 1 - x) y }

/-- The Python exceptions that escape from the methods modelled here. -/
inductive PyError where
  | attributeError
  | valueError
  | stopIteration
deriving DecidableEq

/-- The arithmetic sequence produced by the Python loop
`while cur < bound: yield cur; cur += step`.  The loop body runs at most
`bound - cur` times when `step ≥ 1`, so `fuel = bound` at `cur = 0` is
enough fuel for the recursion to mirror the loop exactly (the code never
runs it with `step = 0`: the constructor replaces a non-positive stride by
the tile size). -/
def strideListAux : Nat → Nat → Nat → Nat → List Nat
  | 0, _, _, _ => []
  | fuel + 1, step, bound, cur =>
    if cur < bound then cur :: strideListAux fuel step bound (cur + step) else []

/-- All values taken by `cur` in `while cur < bound: ...; cur += step`,
starting from 0. -/
def strideList (step bound : Nat) : List Nat :=
  strideListAux bound step bound 0

/-- The session state of class `Tiling`: `size`, `stride`, the bound
`source` (None before `apply`), and the fields `apply` assigns
(`source_name`, `shape`, `n_tiles`), absent (`none`/`""`) before `apply`. -/
structure Tiling where
  size : Nat
  stride : Nat
  source : Option Img
  sourceName : String
  shape : Option (Int × Int)
  nTiles : Option Int

/-- `Tiling.__init__(size, stride)`: stride defaults to `size` when unset or
non-positive (`stride = none` or `stride = some 0` here; Python's negative
strides behave like 0 for this test and are subsumed by it). -/
def Tiling.init (size : Nat) (stride : Option Nat) : Tiling :=
  { size := size,
    stride := match stride with
      | none => size
      | some s => if s < 1 then size else s,
    source := none,
    sourceName := "",
    shape := none,
    nTiles := none }

/-- The `self.shape` formula assigned by `Tiling.apply`:
`((h - size)//stride + 1, (w - size)//stride + 1)` with Python's floor
division (`Int.fdiv`). -/
def gridShape (size stride w h : Nat) : Int × Int :=
  (((h : Int) - (size : Int)).fdiv (stride : Int) + 1,
   ((w : Int) - (size : Int)).fdiv (stride : Int) + 1)

/-- `Tiling.apply(source)` with a decoded image (not a path): binds the
source, sets `source_name = ''`, and derives `shape` and `n_tiles`. -/
def Tiling.apply (t : Tiling) (img : Img) : Tiling :=
  { t with
    source := some img,
    sourceName := "",
    shape := some (gridShape t.size t.stride img.width img.height),
    nTiles := some ((gridShape t.size t.stride img.width img.height).1 *
                    (gridShape t.size t.stride img.width img.height).2) }

/-- The list of rectangles produced by the nested loops of
`Tiling.get_tile_rects` on a bound source: outer loop over `top`
(`while top < height`), inner loop over `left` (`while left < width`),
yielding `(left, top, left+size, top+size)`. -/
def Tiling.tileRectsList (t : Tiling) (src : Img) : List TileRect :=
  (strideList t.stride src.height).flatMap fun top =>
    (strideList t.stride src.width).map fun left =>
      ⟨left, top, left + t.size, top + t.size⟩

/-- `Tiling.get_tile_rects`: raises `AttributeError` when no source is
bound, otherwise produces the rectangle sequence (materialised). -/
def Tiling.get_tile_rects (t : Tiling) : Except PyError (List TileRect) :=
  match t.source with
  | none => .error .attributeError
  | some src => .ok (t.tileRectsList src)

/-- The list of crops produced by the (identical) nested loops of
`Tiling.get_tile_images` on a bound source. -/
def Tiling.tileImagesList (t : Tiling) (src : Img) : List Img :=
  (strideList t.stride src.height).flatMap fun top =>
    (strideList t.stride src.width).map fun left =>
      src.crop ⟨left, top, left + t.size, top + t.size⟩

/-- `Tiling.get_tile_images`: raises `AttributeError` when no source is
bound, otherwise yields the crop of every tile rectangle. -/
def Tiling.get_tile_images (t : Tiling) : Except PyError (List Img) :=
  match t.source with
  | none => .error .attributeError
  | some src => .ok (t.tileImagesList src)

/-- The decimal digit character for `d` (`d % 10` guards totality); models
one digit of Python's `str()` rendering of a non-negative integer. -/
def digitChar (d : Nat) : Char :=
  match d % 10 with
  | 0 => '0' | 1 => '1' | 2 => '2' | 3 => '3' | 4 => '4'
  | 5 => '5' | 6 => '6' | 7 => '7' | 8 => '8' | _ => '9'

/-- The numeric value of a decimal digit character (code points 48-57),
`none` otherwise. -/
def digitVal? (c : Char) : Option Nat :=
  if 48 ≤ c.toNat ∧ c.toNat ≤ 57 then some (c.toNat - 48) else none

/-- Big-endian decimal digits of `n` (empty for 0); fuelled so that the
definition is structural — `n` itself is always enough fuel since a number
has at most `n` digits. -/
def natDigitsAux : Nat → Nat → List Char
  | 0, _ => []
  | fuel + 1, n =>
    if n = 0 then [] else natDigitsAux fuel (n / 10) ++ [digitChar (n % 10)]

/-- Python `str(n)` for a non-negative integer `n`. -/
def pyStr (n : Nat) : String :=
  if n = 0 then "0" else String.mk (natDigitsAux n n)

/-- Python `str.zfill(5)` on an (unsigned) digit string: pad with `'0'` on
the left to length 5. -/
def zfill5 (s : String) : String :=
  String.mk (List.replicate (5 - s.data.length) '0' ++ s.data)

/-- Python `s.split(sep)` for a single-character separator, over character
lists: always returns at least one (possibly empty) group. -/
def splitOnChar (sep : Char) : List Char → List (List Char)
  | [] => [[]]
  | c :: rest =>
    match splitOnChar sep rest with
    | [] => [[c]]
    | g :: gs => if c = sep then [] :: g :: gs else (c :: g) :: gs

/-- First index of `a`, if present (Python `list.index` wrapped in
`Option`; the code turns the `ValueError` it raises into a parse error). -/
def idxOf? {α : Type} [DecidableEq α] (a : α) : List α → Option Nat
  | [] => none
  | b :: rest => if b = a then some 0 else (idxOf? a rest).map (· + 1)

/-- Python `os.path.splitext(p)[0]` on a basename: drop the suffix from the
last `'.'`, unless every character before that dot is itself a dot
(leading dots never start an extension). -/
def splitextStem (cs : List Char) : List Char :=
  match idxOf? '.' cs.reverse with
  | none => cs
  | some k =>
    let d := cs.length - 1 - k
    if (cs.take d).all (fun c => c = '.') then cs else cs.take d

/-- The ASCII whitespace Python's `int()` strips from a string argument. -/
def isSpaceChar (c : Char) : Bool :=
  c = ' ' ∨ c = '\t' ∨ c = '\n' ∨ c = '\r' ∨ c = '\x0b' ∨ c = '\x0c'

/-- Decimal value of a digit list accumulated left to right; `none` on the
first non-digit.  On an empty list it returns the accumulator, so callers
must guard emptiness. -/
def digitsValAux : Nat → List Char → Option Nat
  | acc, [] => some acc
  | acc, c :: rest =>
    match digitVal? c with
    | some d => digitsValAux (acc * 10 + d) rest
    | none => none

/-- Python `int(s)` on the `'_'`-free tokens fed to it by `assemble`:
surrounding whitespace stripped, an optional sign, then one or more
decimal digits (the tokens can never contain `'_'`, so Python's
digit-group underscores cannot occur). -/
def pyIntCore : List Char → Option Int
  | '+' :: rest =>
    if rest = [] then none else (digitsValAux 0 rest).map Int.ofNat
  | '-' :: rest =>
    if rest = [] then none else (digitsValAux 0 rest).map fun n => -(n : Int)
  | cs =>
    if cs = [] then none else (digitsValAux 0 cs).map Int.ofNat

def pyInt? (s : String) : Option Int :=
  pyIntCore (((s.data.dropWhile isSpaceChar).reverse.dropWhile isSpaceChar).reverse)

/-- Python `os.path.join(dir, name)` on Linux. -/
def pathJoin (dir nm : String) : String := dir ++ "/" ++ nm

/-- The base identifier `prefix + '_x_' + str(left).zfill(5) + '_y_' +
str(top).zfill(5)` built by `write_tiles`. -/
def tileBaseName (pfx : String) (left top : Nat) : String :=
  pfx ++ "_x_" ++ zfill5 (pyStr left) ++ "_y_" ++ zfill5 (pyStr top)

/-- The files written by one iteration of the `write_tiles` loop, in write
order: the base crop, then (if `rotate`) its three rotations, then (if
`flip`) its two flips, and — if both flags are set — 90° and 270° rotations
of the *last* flip written, which is the horizontal one (the Python loop
variable `copy` still holds the `hor` flip when the trailing `if rotate`
block runs). -/
def perTileFiles (dir pfx : String) (rotate flip : Bool) (src : Img)
    (r : TileRect) : List (String × Img) :=
  let tilename := tileBaseName pfx r.left r.top
  let cropImg := src.crop r
  [(pathJoin dir (tilename ++ ".png"), cropImg)]
  ++ (if rotate then
        [(pathJoin dir (tilename ++ "_rot_90.png"), cropImg.rot90),
         (pathJoin dir (tilename ++ "_rot_180.png"), cropImg.rot180),
         (pathJoin dir (tilename ++ "_rot_270.png"), cropImg.rot270)]
      else [])
  ++ (if flip then
        [(pathJoin dir (tilename ++ "_flip_vert.png"), cropImg.flipVert),
         (pathJoin dir (tilename ++ "_flip_hor.png"), cropImg.flipHor)]
        ++ (if rotate then
              [(pathJoin dir (tilename ++ "_flip_hor_rot_90.png"),
                cropImg.flipHor.rot90),
               (pathJoin dir (tilename ++ "_flip_hor_rot_270.png"),
                cropImg.flipHor.rot270)]
            else [])
      else [])

/-- `Tiling.write_tiles(target_dir, rotate, flip, filename_prefix)`:
the written (path, pixel content) pairs in write order.  Before `apply`
the method fails with `AttributeError` (reading `self.source_name` /
iterating `get_tile_rects`). -/
def Tiling.write_tiles (t : Tiling) (dir : String) (rotate flip : Bool)
    (pfxArg : Option String) : Except PyError (List (String × Img)) :=
  match t.source with
  | none => .error .attributeError
  | some src =>
    let pfx := match pfxArg with
      | none => t.sourceName
      | some p => p
    .ok ((t.tileRectsList src).flatMap (perTileFiles dir pfx rotate flip src))

/-- Sum of all pixel intensities of a buffer (the sum `np.asarray(img)`
ranges over). -/
def Img.pixSum (img : Img) : Nat :=
  ((List.range img.height).map fun y =>
    ((List.range img.width).map fun x => img.pix x y).sum).sum

/-- `np.asarray(image).mean()`: the arithmetic mean of the pixel values, as
an exact rational. -/
def Img.meanVal (img : Img) : ℚ :=
  (img.pixSum : ℚ) / ((img.width * img.height : Nat) : ℚ)

/-- `Tiling.filter_tiles(lower_threshold, upper_threshold)`: zip the
rectangle and image traversals and keep the pairs whose mean pixel value
lies strictly between the thresholds. -/
def Tiling.filter_tiles (t : Tiling) (lower upper : ℚ) :
    Except PyError (List (TileRect × Img)) :=
  match t.source with
  | none => .error .attributeError
  | some src =>
    .ok (((t.tileRectsList src).zip (t.tileImagesList src)).filter
      fun p => decide (p.2.meanVal > lower ∧ p.2.meanVal < upper))

/-- The three runtime shapes of an element of the `tiles` argument of
`assemble`: an identifier string, a `(rect, image)` 2-tuple (the rect an
arbitrary Python int 4-tuple), or a bare image. -/
inductive TileElem where
  | name : String → TileElem
  | pair : Int × Int × Int × Int → Img → TileElem
  | bare : Img → TileElem

/-- Tokenisation an identifier-string element undergoes in `assemble`:
`os.path.split(tile)[-1]`, then `os.path.splitext(...)[0]`, then
`.split('_')`. -/
def nameTokens (s : String) : List String :=
  let base := (splitOnChar '/' s.data).getLastD []
  (splitOnChar '_' (splitextStem base)).map String.mk

/-- The token following index `i`, as `assemble` accesses it
(`fnamesplit[i+1]`); an out-of-range access yields `""`, which `int()`
rejects, exactly as the Python `IndexError` is caught by the same handler
that turns it into the `ValueError`. -/
def tokenAfter (ts : List String) (i : Nat) : String :=
  ts.getD (i + 1) ""

/-- The `x`/`y` extraction of `assemble`: first indices of tokens `'x'` and
`'y'`, then `int()` of the following token; any failure (missing token,
missing successor, malformed integer) collapses to `none`, which the
caller turns into the `ValueError`. -/
def parseXY (ts : List String) : Option (Int × Int) :=
  match idxOf? "x" ts, idxOf? "y" ts with
  | some xi, some yi =>
    match pyInt? (tokenAfter ts xi), pyInt? (tokenAfter ts yi) with
    | some x, some y => some (x, y)
    | _, _ => none
  | _, _ => none

/-- The loop body of `Tiling.assemble` over the `tiles` iterable: `canvas`
is the output image built so far, `rects` the not-yet-consumed suffix of
the internal `get_tile_rects()` generator (pulled only by bare-image
elements). -/
def assembleGo (dec : String → Img) :
    Img → List TileRect → List TileElem → Except PyError Img
  | canvas, _, [] => .ok canvas
  | canvas, rects, .name s :: rest =>
    let ts := nameTokens s
    if "rot" ∈ ts ∨ "flip" ∈ ts then assembleGo dec canvas rects rest
    else
      match parseXY ts with
      | none => .error .valueError
      | some (x, y) => assembleGo dec (canvas.paste (dec s) x y) rects rest
  | canvas, rects, .pair r img :: rest =>
    assembleGo dec (canvas.paste img r.1 r.2.1) rects rest
  | canvas, rects, .bare img :: rest =>
    match rects with
    | [] => .error .stopIteration
    | r :: rs => assembleGo dec (canvas.paste img (r.left : Int) (r.top : Int)) rs rest

/-- `Tiling.assemble(tiles, mode)`: creating the generator `rects` runs no
generator code, so the first statement that touches session state is
`Image.new(mode, self.source.size)` — on an unbound session that attribute
access on `None` raises `AttributeError`.  `dec` is the external decoder
behind `Image.open` (pixel content of the file at a path). -/
def Tiling.assemble (t : Tiling) (dec : String → Img) (tiles : List TileElem)
    (_mode : String) : Except PyError Img :=
  match t.source with
  | none => .error .attributeError
  | some src =>
    assembleGo dec (Img.new src.width src.height) (t.tileRectsList src) tiles

/-- Sequential pasting of a list of (left, top, image) operations, as the
assemble loop performs it. -/
def pasteSeq (canvas : Img) (ops : List (Int × Int × Img)) : Img :=
  ops.foldl (fun c op => c.paste op.2.2 op.1 op.2.1) canvas

/-- Decode oracle reading from a written-file store, defaulting to an empty
image for paths never written (never exercised by the theorems). -/
def lookupDec (files : List (String × Img)) : String → Img :=
  fun s => ((files.lookup s).getD (Img.new 0 0))

/-- Modelled from the spec's words (claim C5 / section 4.2 `assemble`): the
condition under which an identifier element must fail with `ParseError` —
the token list has no `x` token or no `y` token, or the token following the
(first) `x` or `y` is not a valid integer (the successor token being absent
counts as invalid, as the claim's Python source raises `IndexError` there,
caught by the same handler). -/
def specParseFailure (ts : List String) : Prop :=
  "x" ∉ ts ∨ "y" ∉ ts ∨
  (match idxOf? "x" ts with
   | some xi => pyInt? (tokenAfter ts xi) = none
   | none => True) ∨
  (match idxOf? "y" ts with
   | some yi => pyInt? (tokenAfter ts yi) = none
   | none => True)

/-- An (left, top, image) paste operation covers pixel (x, y): the pixel
falls inside the pasted region. -/
def pasteCovers (op : Int × Int × Img) (x y : Nat) : Prop :=
  op.1 ≤ (x : Int) ∧ (x : Int) < op.1 + op.2.2.width ∧
  op.2.1 ≤ (y : Int) ∧ (y : Int) < op.2.1 + op.2.2.height

/-- The value a paste operation writes at pixel (x, y) when it covers it. -/
def pasteValAt (op : Int × Int × Img) (x y : Nat) : Nat :=
  op.2.2.pix ((x : Int) - op.1).toNat ((y : Int) - op.2.1).toNat

/-- The path of the base (underived) file `write_tiles` writes for a tile:
`os.path.join(target_dir, prefix + '_x_' + ... + '.png')`. -/
def writtenName (dir pfx : String) (r : TileRect) : String :=
  pathJoin dir (tileBaseName pfx r.left r.top ++ ".png")

/-! ### Closed form of the while-loop sequences -/

theorem strideListAux_closed (step : Nat) (hs : 1 ≤ step) :
    ∀ (fuel bound cur : Nat), bound ≤ cur + fuel →
      strideListAux fuel step bound cur =
        (List.range ((bound - cur + step - 1) / step)).map fun k => cur + k * step := by
  intro fuel
  induction fuel with
  | zero =>
    intro bound cur h
    have hbc : bound - cur = 0 := by omega
    rw [strideListAux, hbc]
    have : (0 + step - 1) / step = 0 := Nat.div_eq_of_lt (by omega)
    rw [this]
    rfl
  | succ fuel ih =>
    intro bound cur h
    rw [strideListAux]
    by_cases hcb : cur < bound
    · rw [if_pos hcb, ih bound (cur + step) (by omega)]
      have hm : 1 ≤ bound - cur := by omega
      have hcount : (bound - cur + step - 1) / step
          = (bound - (cur + step) + step - 1) / step + 1 := by
        rcases le_or_lt step (bound - cur) with hle | hlt
        · have e1 : bound - (cur + step) + step - 1 = bound - cur - 1 := by omega
          have e2 : bound - cur + step - 1 = (bound - cur - 1) + step := by omega
          rw [e1, e2, Nat.add_div_right _ (by omega)]
        · have e1 : bound - (cur + step) = 0 := by omega
          have e2 : bound - cur + step - 1 = (bound - cur - 1) + step := by omega
          rw [e1, e2, Nat.add_div_right _ (by omega),
            Nat.div_eq_of_lt (by omega), Nat.div_eq_of_lt (by omega)]
      rw [hcount, List.range_succ_eq_map, List.map_cons, List.map_map]
      refine congrArg₂ _ (by omega) ?_
      refine List.map_congr_left fun k _ => ?_
      show cur + step + k * step = cur + Nat.succ k * step
      rw [Nat.succ_mul]
      omega
    · rw [if_neg hcb]
      have hbc : bound - cur = 0 := by omega
      rw [hbc]
      have : (0 + step - 1) / step = 0 := Nat.div_eq_of_lt (by omega)
      rw [this]
      rfl

theorem strideList_closed (step bound : Nat) (hs : 1 ≤ step) :
    strideList step bound =
      (List.range ((bound + step - 1) / step)).map fun k => k * step := by
  rw [strideList, strideListAux_closed step hs bound bound 0 (by omega)]
  simp

theorem strideList_length (step bound : Nat) (hs : 1 ≤ step) :
    (strideList step bound).length = (bound + step - 1) / step := by
  rw [strideList_closed step bound hs, List.length_map, List.length_range]

theorem strideList_mul (step a : Nat) (hs : 1 ≤ step) :
    strideList step (a * step) = (List.range a).map fun k => k * step := by
  rw [strideList_closed step _ hs]
  have : (a * step + step - 1) / step = a := by
    have e : a * step + step - 1 = (step - 1) + a * step := by omega
    rw [e, Nat.add_mul_div_right _ _ (by omega), Nat.div_eq_of_lt (by omega)]
    omega
  rw [this]

theorem tileRectsList_length (t : Tiling) (src : Img) (hs : 1 ≤ t.stride) :
    (t.tileRectsList src).length =
      ((src.height + t.stride - 1) / t.stride) *
      ((src.width + t.stride - 1) / t.stride) := by
  rw [Tiling.tileRectsList, List.length_flatMap]
  have : ∀ top : Nat,
      (((strideList t.stride src.width).map fun left =>
        (⟨left, top, left + t.size, top + t.size⟩ : TileRect)).length)
        = (src.width + t.stride - 1) / t.stride := by
    intro top
    rw [List.length_map, strideList_length _ _ hs]
  calc ((strideList t.stride src.height).map fun top =>
          ((strideList t.stride src.width).map fun left =>
            (⟨left, top, left + t.size, top + t.size⟩ : TileRect)).length).sum
      = ((strideList t.stride src.height).map fun _ =>
          (src.width + t.stride - 1) / t.stride).sum := by
        exact congrArg _ (List.map_congr_left fun top _ => this top)
    _ = (strideList t.stride src.height).length *
          ((src.width + t.stride - 1) / t.stride) := by
        rw [List.map_const', List.sum_replicate, smul_eq_mul]
    _ = _ := by rw [strideList_length _ _ hs]

/-! ### Claims C1 and C2: rectangle counts -/

/-- Claim C1, amended.  The claim's count formula is wrong: the loops of
`get_tile_rects` run `while top < h` / `while left < w`, so a session with
tileSize ≥ 1 and stride ≥ 1 bound to a w×h image yields exactly
`ceil(h/stride) * ceil(w/stride)` rectangles (written with Nat division as
`(h+stride-1)/stride * ((w+stride-1)/stride)`), not `rows*cols` of the
GridShape formula computed by `apply`; the two agree only when the image
dimensions leave no remainder past the last fully in-bounds tile.  In
particular the 250×200 example yields 6 rectangles, not 4. -/
theorem claim_C1_amended (t : Tiling) (src : Img) (hsrc : t.source = some src)
    (hsize : 1 ≤ t.size) (hstride : 1 ≤ t.stride) :
    ∃ l, t.get_tile_rects = .ok l ∧
      l.length = ((src.height + t.stride - 1) / t.stride) *
                 ((src.width + t.stride - 1) / t.stride) := by
  refine ⟨t.tileRectsList src, ?_, tileRectsList_length t src hstride⟩
  rw [Tiling.get_tile_rects, hsrc]

/-- Claim C1, counterexample: with tileSize = 100, stride = 100 on a
250×200 image, `get_tile_rects` yields 6 rectangles — including
(200, 0, 300, 100), which sticks out past the right edge — while `apply`'s
GridShape formula stored in `n_tiles` says 2*2 = 4, and the claim's list of
4 rectangles has length 4 ≠ 6. -/
theorem claim_C1_counterexample :
    ((Tiling.init 100 none).apply (Img.new 250 200)).get_tile_rects =
      .ok [⟨0, 0, 100, 100⟩, ⟨100, 0, 200, 100⟩, ⟨200, 0, 300, 100⟩,
           ⟨0, 100, 100, 200⟩, ⟨100, 100, 200, 200⟩, ⟨200, 100, 300, 200⟩] ∧
    ((Tiling.init 100 none).apply (Img.new 250 200)).nTiles = some (2 * 2) ∧
    ([(⟨0, 0, 100, 100⟩ : TileRect), ⟨100, 0, 200, 100⟩, ⟨200, 0, 300, 100⟩,
      ⟨0, 100, 100, 200⟩, ⟨100, 100, 200, 200⟩, ⟨200, 100, 300, 200⟩].length ≠ 2 * 2) := by
  refine ⟨rfl, by decide, by decide⟩

/-- Witness for the amended C1 at the 250×200 example: 6 rectangles. -/
theorem claim_C1_witness :
    ∃ l, ((Tiling.init 100 none).apply (Img.new 250 200)).get_tile_rects = .ok l ∧
      l.length = ((200 + 100 - 1) / 100) * ((250 + 100 - 1) / 100) :=
  claim_C1_amended ((Tiling.init 100 none).apply (Img.new 250 200))
    (Img.new 250 200) rfl (by decide) (by decide)

/-- Claim C2, amended.  The code raises no error when the bound image is
smaller than the tile size, but the rectangle sequence is *not* empty: the
loop conditions compare against the image dimensions, not against
`dimension - size`, so the sequence is empty exactly when the width or the
height is zero; otherwise it still yields (out-of-bounds) rectangles even
though both GridShape counts are non-positive. -/
theorem claim_C2_amended (t : Tiling) (src : Img) (hsrc : t.source = some src)
    (hstride : 1 ≤ t.stride)
    (hsmall : src.width < t.size ∨ src.height < t.size) :
    ∃ l, t.get_tile_rects = .ok l ∧
      (l = [] ↔ src.width = 0 ∨ src.height = 0) := by
  refine ⟨t.tileRectsList src, by rw [Tiling.get_tile_rects, hsrc], ?_⟩
  rw [← List.length_eq_zero, tileRectsList_length t src hstride]
  rw [Nat.mul_eq_zero, Nat.div_eq_zero_iff (by omega), Nat.div_eq_zero_iff (by omega)]
  omega

/-- Claim C2, counterexample: a 50×50 image bound with tileSize = 100
produces one rectangle, (0, 0, 100, 100), not an empty sequence. -/
theorem claim_C2_counterexample :
    ((Tiling.init 100 none).apply (Img.new 50 50)).get_tile_rects =
      .ok [⟨0, 0, 100, 100⟩] ∧
    ([(⟨0, 0, 100, 100⟩ : TileRect)] ≠ []) ∧ 50 < 100 :=
  ⟨rfl, by decide, by decide⟩

/-- Witness for the amended C2 at the 50×50 / tileSize 100 example. -/
theorem claim_C2_witness :
    ∃ l, ((Tiling.init 100 none).apply (Img.new 50 50)).get_tile_rects = .ok l ∧
      (l = [] ↔ (Img.new 50 50).width = 0 ∨ (Img.new 50 50).height = 0) :=
  claim_C2_amended ((Tiling.init 100 none).apply (Img.new 50 50))
    (Img.new 50 50) rfl (by decide) (Or.inl (by decide))

/-! ### Claim C4: bare images and grid exhaustion -/

theorem assembleGo_bare_error_iff (dec : String → Img) (imgs : List Img) :
    ∀ (canvas : Img) (rects : List TileRect),
      assembleGo dec canvas rects (imgs.map TileElem.bare) = .error .stopIteration ↔
        rects.length < imgs.length := by
  induction imgs with
  | nil =>
    intro canvas rects
    simp [assembleGo]
  | cons img rest ih =>
    intro canvas rects
    cases rects with
    | nil => simp [assembleGo]
    | cons r rs =>
      rw [List.map_cons]
      rw [assembleGo]
      rw [ih]
      simp only [List.length_cons]
      omega

/-- Claim C4, amended.  `assemble` with a list of bare (unannotated) image
elements fails — with the `StopIteration` escaping from `next(rects)`, the
spec's `ExhaustedGridError` — exactly when the list is longer than the
sequence `get_tile_rects` actually yields, i.e. `ceil(h/stride) *
ceil(w/stride)` rectangles; the failure fires at the moment a bare element
pulls past the last *yielded* rectangle, which is beyond the claim's
`rows*cols` canonical count whenever the dimensions are not exact
multiples. -/
theorem claim_C4_amended (t : Tiling) (src : Img) (hsrc : t.source = some src)
    (hstride : 1 ≤ t.stride) (dec : String → Img) (imgs : List Img)
    (mode : String) :
    t.assemble dec (imgs.map TileElem.bare) mode = .error .stopIteration ↔
      ((src.height + t.stride - 1) / t.stride) *
      ((src.width + t.stride - 1) / t.stride) < imgs.length := by
  rw [Tiling.assemble, hsrc]
  rw [assembleGo_bare_error_iff, tileRectsList_length t src hstride]

/-- Claim C4, counterexample: on the 250×200, tileSize = stride = 100
session, the GridShape count is 4, yet 5 bare images assemble without
error (the generator still had 6 rectangles to hand out), contradicting
the claim that a bare element pulling past the 4th canonical rectangle
must fail with `ExhaustedGridError`. -/
theorem claim_C4_counterexample :
    ((Tiling.init 100 none).apply (Img.new 250 200)).nTiles = some 4 ∧
    (4 : Nat) < 5 ∧
    ∃ res, ((Tiling.init 100 none).apply (Img.new 250 200)).assemble
        (fun _ => Img.new 0 0)
        (List.replicate 5 (TileElem.bare (Img.new 100 100))) "RGB" = .ok res :=
  ⟨by decide, by decide, ⟨_, rfl⟩⟩

/-- Witness for the amended C4: on the same session, 7 bare images exceed
the 6 yielded rectangles and do fail with the exhaustion error. -/
theorem claim_C4_witness :
    ((Tiling.init 100 none).apply (Img.new 250 200)).assemble
        (fun _ => Img.new 0 0)
        ((List.replicate 7 (Img.new 100 100)).map TileElem.bare) "RGB" =
      .error .stopIteration ↔
      ((200 + 100 - 1) / 100) * ((250 + 100 - 1) / 100) <
        (List.replicate 7 (Img.new 100 100)).length :=
  claim_C4_amended ((Tiling.init 100 none).apply (Img.new 250 200))
    (Img.new 250 200) rfl (by decide) (fun _ => Img.new 0 0)
    (List.replicate 7 (Img.new 100 100)) "RGB"

/-! ### Claim C6: traversal before and after apply -/

/-- Claim C6: on a session whose source is unbound (`None`, as a freshly
constructed session), both `get_tile_rects` and `get_tile_images` fail with
the `AttributeError` the code raises (the spec's `StateError`); once
`apply` has bound a source, both succeed. -/
theorem claim_C6 (t : Tiling) (hsrc : t.source = none) (img : Img) :
    t.get_tile_rects = .error .attributeError ∧
    t.get_tile_images = .error .attributeError ∧
    (∃ l, (t.apply img).get_tile_rects = .ok l) ∧
    (∃ l, (t.apply img).get_tile_images = .ok l) := by
  refine ⟨?_, ?_, ⟨_, rfl⟩, ⟨_, rfl⟩⟩
  · rw [Tiling.get_tile_rects, hsrc]
  · rw [Tiling.get_tile_images, hsrc]

/-- Witness for C6 on a fresh `Tiling(100)` session and a 250×200 image. -/
theorem claim_C6_witness :
    (Tiling.init 100 none).get_tile_rects = .error .attributeError ∧
    (Tiling.init 100 none).get_tile_images = .error .attributeError ∧
    (∃ l, ((Tiling.init 100 none).apply (Img.new 250 200)).get_tile_rects = .ok l) ∧
    (∃ l, ((Tiling.init 100 none).apply (Img.new 250 200)).get_tile_images = .ok l) :=
  claim_C6 (Tiling.init 100 none) rfl (Img.new 250 200)

/-! ### Claim C10: assemble before apply -/

/-- Claim C10: `assemble` on a session never bound by `apply` fails for
every tiles argument, the empty list included: the generator expression
`self.get_tile_rects()` runs no generator code, so the first touch of
session state is `Image.new(mode, self.source.size)`, an attribute access
on `None` that raises `AttributeError` before any element is processed —
even though `assemble` has no explicit source-is-None guard. -/
theorem claim_C10 (t : Tiling) (hsrc : t.source = none) (dec : String → Img)
    (tiles : List TileElem) (mode : String) :
    t.assemble dec tiles mode = .error .attributeError := by
  rw [Tiling.assemble, hsrc]

/-- Witness for C10: a fresh session, with an empty and a non-empty tiles
list. -/
theorem claim_C10_witness :
    (Tiling.init 100 none).assemble (fun _ => Img.new 0 0) [] "RGB" =
      .error .attributeError ∧
    (Tiling.init 100 none).assemble (fun _ => Img.new 0 0)
        [TileElem.bare (Img.new 1 1)] "RGB" = .error .attributeError :=
  ⟨claim_C10 (Tiling.init 100 none) rfl (fun _ => Img.new 0 0) [] "RGB",
   claim_C10 (Tiling.init 100 none) rfl (fun _ => Img.new 0 0)
     [TileElem.bare (Img.new 1 1)] "RGB"⟩

/-! ### Claim C8: row-major traversal order -/

theorem strideListAux_head? (fuel step bound cur : Nat) :
    (strideListAux fuel step bound cur).head? =
      if 0 < fuel ∧ cur < bound then some cur else none := by
  cases fuel with
  | zero => simp [strideListAux]
  | succ fuel =>
    rw [strideListAux]
    by_cases h : cur < bound
    · simp [h]
    · simp [h]

theorem strideListAux_chain (step : Nat) :
    ∀ (fuel bound cur : Nat),
      List.Chain' (fun a b => b = a + step) (strideListAux fuel step bound cur) := by
  intro fuel
  induction fuel with
  | zero => intro bound cur; simp [strideListAux]
  | succ fuel ih =>
    intro bound cur
    rw [strideListAux]
    by_cases h : cur < bound
    · rw [if_pos h]
      refine List.Chain'.cons' (ih bound (cur + step)) ?_
      intro y hy
      rw [strideListAux_head?] at hy
      by_cases h2 : 0 < fuel ∧ cur + step < bound
      · rw [if_pos h2] at hy
        exact (Option.mem_some_iff.mp hy).symm
      · rw [if_neg h2] at hy
        exact absurd hy (by simp)
    · rw [if_neg h]
      exact List.chain'_nil

theorem strideList_head? (step bound : Nat) (hb : 0 < bound) :
    (strideList step bound).head? = some 0 := by
  rw [strideList, strideListAux_head?, if_pos ⟨hb, hb⟩]

theorem strideList_ne_nil (step bound : Nat) (hb : 0 < bound) :
    strideList step bound ≠ [] := by
  intro h
  have := strideList_head? step bound hb
  rw [h] at this
  exact absurd this (by simp)

theorem mem_of_getLast?_eq {α : Type} :
    ∀ {l : List α} {a : α}, l.getLast? = some a → a ∈ l := by
  intro l
  induction l with
  | nil => intro a h; exact absurd h (by simp)
  | cons b rest ih =>
    intro a h
    cases rest with
    | nil =>
      simp only [List.getLast?_singleton, Option.some.injEq] at h
      simp [h]
    | cons c rest' =>
      rw [List.getLast?_cons_cons] at h
      exact List.mem_cons_of_mem b (ih h)

theorem chain'_flatMap {α β : Type} (R : β → β → Prop) (S : α → α → Prop)
    (f : α → List β) :
    ∀ (l : List α), List.Chain' S l → (∀ a ∈ l, f a ≠ []) →
      (∀ a ∈ l, List.Chain' R (f a)) →
      (∀ a b, S a b → ∀ x ∈ (f a).getLast?, ∀ y ∈ (f b).head?, R x y) →
      List.Chain' R (l.flatMap f) := by
  intro l
  induction l with
  | nil => intro _ _ _ _; simp
  | cons a rest ih =>
    intro hS hne hrow hbd
    rw [List.flatMap_cons, List.chain'_append]
    refine ⟨hrow a (by simp), ?_, ?_⟩
    · exact ih hS.tail (fun b hb => hne b (List.mem_cons_of_mem a hb))
        (fun b hb => hrow b (List.mem_cons_of_mem a hb)) hbd
    · intro x hx y hy
      cases rest with
      | nil => exact absurd hy (by simp)
      | cons b rest' =>
        rw [List.flatMap_cons,
          List.head?_append_of_ne_nil _ (hne b (by simp))] at hy
        exact hbd a b (List.chain'_cons.mp hS).1 x hx y hy

/-- Claim C8: consecutive rectangles of `get_tile_rects` either stay in the
same row with `left` advanced by the stride, or start a new row: `top`
advanced by the stride and `left` reset to 0. -/
theorem claim_C8 (t : Tiling) (src : Img) (hsrc : t.source = some src)
    (hstride : 1 ≤ t.stride) :
    ∃ l, t.get_tile_rects = .ok l ∧
      List.Chain' (fun r1 r2 : TileRect =>
        (r2.top = r1.top ∧ r2.left = r1.left + t.stride) ∨
        (r2.top = r1.top + t.stride ∧ r2.left = 0)) l := by
  refine ⟨t.tileRectsList src, by rw [Tiling.get_tile_rects, hsrc], ?_⟩
  rw [Tiling.tileRectsList]
  by_cases hw : src.width = 0
  · have hnil : strideList t.stride src.width = [] := by
      rw [hw]; rfl
    rw [hnil]
    have : ((strideList t.stride src.height).flatMap fun (top : Nat) =>
        List.map (fun left =>
          (⟨left, top, left + t.size, top + t.size⟩ : TileRect)) []) = [] := by
      simp
    rw [this]
    exact List.chain'_nil
  · refine chain'_flatMap _ (fun a b => b = a + t.stride) _ _
      (strideListAux_chain t.stride _ _ _) ?_ ?_ ?_
    · intro top _ h
      exact strideList_ne_nil t.stride src.width (by omega)
        (List.map_eq_nil_iff.mp h)
    · intro top _
      refine (List.chain'_map _).mpr ?_
      exact (strideListAux_chain t.stride _ _ _).imp
        (fun a b h => Or.inl ⟨rfl, by rw [h]⟩)
    · intro t1 t2 hS x hx y hy
      have hx' : x.top = t1 := by
        rcases List.mem_map.mp (mem_of_getLast?_eq hx) with ⟨l1, _, hl1⟩
        rw [← hl1]
      have hy' : y = ⟨0, t2, 0 + t.size, t2 + t.size⟩ := by
        rw [List.head?_map, strideList_head? t.stride src.width (by omega)] at hy
        exact (Option.mem_some_iff.mp hy).symm
      refine Or.inr ?_
      rw [hy', hx', hS]
      exact ⟨rfl, rfl⟩

/-- Witness for C8 on the 250×200, tileSize = stride = 100 session. -/
theorem claim_C8_witness :
    ∃ l, ((Tiling.init 100 none).apply (Img.new 250 200)).get_tile_rects = .ok l ∧
      List.Chain' (fun r1 r2 : TileRect =>
        (r2.top = r1.top ∧ r2.left = r1.left + 100) ∨
        (r2.top = r1.top + 100 ∧ r2.left = 0)) l :=
  claim_C8 ((Tiling.init 100 none).apply (Img.new 250 200))
    (Img.new 250 200) rfl (by decide)

/-! ### Claim C7: derivative files written per tile -/

theorem stringData_inj {a b : String} (h : a.data = b.data) : a = b := by
  cases a; cases b; exact congrArg String.mk h

theorem stringAppend_right_inj {a b c : String} (h : a ++ b = a ++ c) : b = c := by
  have hd := congrArg String.data h
  rw [String.data_append, String.data_append] at hd
  exact stringData_inj (List.append_cancel_left hd)

theorem pathJoin_sfx_inj {dir nm s1 s2 : String}
    (h : pathJoin dir (nm ++ s1) = pathJoin dir (nm ++ s2)) : s1 = s2 := by
  rw [pathJoin, pathJoin] at h
  exact stringAppend_right_inj (stringAppend_right_inj h)

/-- Claim C7: with `rotate=True` and `flip=True`, `write_tiles` writes
exactly 8 files per tile, with distinct names: the base crop, its three
rotations (`_rot_90/_rot_180/_rot_270`), its two flips
(`_flip_vert/_flip_hor`), and 90°/270° rotations *of the horizontally
flipped derivative* (`_flip_hor_rot_90/_flip_hor_rot_270`) — the loop
variable still holds the `hor` flip when the trailing rotate block runs,
so no rotated derivative of the vertical flip is written. -/
theorem claim_C7 (t : Tiling) (src : Img) (hsrc : t.source = some src)
    (dir : String) (pfxArg : Option String) :
    ∃ files, t.write_tiles dir true true pfxArg = .ok files ∧
      files = (t.tileRectsList src).flatMap
        (perTileFiles dir (pfxArg.getD t.sourceName) true true src) ∧
      ∀ r ∈ t.tileRectsList src,
        (perTileFiles dir (pfxArg.getD t.sourceName) true true src r =
          [(pathJoin dir (tileBaseName (pfxArg.getD t.sourceName) r.left r.top ++ ".png"),
            src.crop r),
           (pathJoin dir (tileBaseName (pfxArg.getD t.sourceName) r.left r.top ++ "_rot_90.png"),
            (src.crop r).rot90),
           (pathJoin dir (tileBaseName (pfxArg.getD t.sourceName) r.left r.top ++ "_rot_180.png"),
            (src.crop r).rot180),
           (pathJoin dir (tileBaseName (pfxArg.getD t.sourceName) r.left r.top ++ "_rot_270.png"),
            (src.crop r).rot270),
           (pathJoin dir (tileBaseName (pfxArg.getD t.sourceName) r.left r.top ++ "_flip_vert.png"),
            (src.crop r).flipVert),
           (pathJoin dir (tileBaseName (pfxArg.getD t.sourceName) r.left r.top ++ "_flip_hor.png"),
            (src.crop r).flipHor),
           (pathJoin dir (tileBaseName (pfxArg.getD t.sourceName) r.left r.top ++ "_flip_hor_rot_90.png"),
            (src.crop r).flipHor.rot90),
           (pathJoin dir (tileBaseName (pfxArg.getD t.sourceName) r.left r.top ++ "_flip_hor_rot_270.png"),
            (src.crop r).flipHor.rot270)]) ∧
        (perTileFiles dir (pfxArg.getD t.sourceName) true true src r).length = 8 ∧
        ((perTileFiles dir (pfxArg.getD t.sourceName) true true src r).map
          Prod.fst).Pairwise (fun a b => a ≠ b) := by
  have hper : ∀ r : TileRect,
      ((perTileFiles dir (pfxArg.getD t.sourceName) true true src r).map
        Prod.fst).Pairwise (fun a b => a ≠ b) := by
    intro r
    have hshape :
        (perTileFiles dir (pfxArg.getD t.sourceName) true true src r).map Prod.fst =
        [".png", "_rot_90.png", "_rot_180.png", "_rot_270.png",
         "_flip_vert.png", "_flip_hor.png", "_flip_hor_rot_90.png",
         "_flip_hor_rot_270.png"].map
          (fun s => pathJoin dir
            (tileBaseName (pfxArg.getD t.sourceName) r.left r.top ++ s)) := rfl
    rw [hshape]
    have hp : ([".png", "_rot_90.png", "_rot_180.png", "_rot_270.png",
        "_flip_vert.png", "_flip_hor.png", "_flip_hor_rot_90.png",
        "_flip_hor_rot_270.png"] : List String).Pairwise (fun a b => a ≠ b) := by
      decide
    exact List.Pairwise.map _ (fun a b hab h => hab (pathJoin_sfx_inj h)) hp
  cases pfxArg with
  | none =>
    refine ⟨_, by rw [Tiling.write_tiles, hsrc]; rfl, rfl, ?_⟩
    intro r _
    exact ⟨rfl, rfl, hper r⟩
  | some p =>
    refine ⟨_, by rw [Tiling.write_tiles, hsrc]; rfl, rfl, ?_⟩
    intro r _
    exact ⟨rfl, rfl, hper r⟩

/-- Witness for C7: a 1×1 image with tileSize 1, default prefix. -/
theorem claim_C7_witness :
    ∃ files, ((Tiling.init 1 none).apply (Img.new 1 1)).write_tiles
        "tiles" true true none = .ok files ∧
      files = (((Tiling.init 1 none).apply (Img.new 1 1)).tileRectsList
        (Img.new 1 1)).flatMap
          (perTileFiles "tiles"
            ((none : Option String).getD
              (((Tiling.init 1 none).apply (Img.new 1 1)).sourceName))
            true true (Img.new 1 1)) ∧
      ∀ r ∈ ((Tiling.init 1 none).apply (Img.new 1 1)).tileRectsList (Img.new 1 1),
        (perTileFiles "tiles"
            ((none : Option String).getD
              (((Tiling.init 1 none).apply (Img.new 1 1)).sourceName))
            true true (Img.new 1 1) r =
          [(pathJoin "tiles" (tileBaseName ((none : Option String).getD
              (((Tiling.init 1 none).apply (Img.new 1 1)).sourceName)) r.left r.top ++ ".png"),
            (Img.new 1 1).crop r),
           (pathJoin "tiles" (tileBaseName ((none : Option String).getD
              (((Tiling.init 1 none).apply (Img.new 1 1)).sourceName)) r.left r.top ++ "_rot_90.png"),
            ((Img.new 1 1).crop r).rot90),
           (pathJoin "tiles" (tileBaseName ((none : Option String).getD
              (((Tiling.init 1 none).apply (Img.new 1 1)).sourceName)) r.left r.top ++ "_rot_180.png"),
            ((Img.new 1 1).crop r).rot180),
           (pathJoin "tiles" (tileBaseName ((none : Option String).getD
              (((Tiling.init 1 none).apply (Img.new 1 1)).sourceName)) r.left r.top ++ "_rot_270.png"),
            ((Img.new 1 1).crop r).rot270),
           (pathJoin "tiles" (tileBaseName ((none : Option String).getD
              (((Tiling.init 1 none).apply (Img.new 1 1)).sourceName)) r.left r.top ++ "_flip_vert.png"),
            ((Img.new 1 1).crop r).flipVert),
           (pathJoin "tiles" (tileBaseName ((none : Option String).getD
              (((Tiling.init 1 none).apply (Img.new 1 1)).sourceName)) r.left r.top ++ "_flip_hor.png"),
            ((Img.new 1 1).crop r).flipHor),
           (pathJoin "tiles" (tileBaseName ((none : Option String).getD
              (((Tiling.init 1 none).apply (Img.new 1 1)).sourceName)) r.left r.top ++ "_flip_hor_rot_90.png"),
            ((Img.new 1 1).crop r).flipHor.rot90),
           (pathJoin "tiles" (tileBaseName ((none : Option String).getD
              (((Tiling.init 1 none).apply (Img.new 1 1)).sourceName)) r.left r.top ++ "_flip_hor_rot_270.png"),
            ((Img.new 1 1).crop r).flipHor.rot270)]) ∧
        (perTileFiles "tiles"
          ((none : Option String).getD
            (((Tiling.init 1 none).apply (Img.new 1 1)).sourceName))
          true true (Img.new 1 1) r).length = 8 ∧
        ((perTileFiles "tiles"
          ((none : Option String).getD
            (((Tiling.init 1 none).apply (Img.new 1 1)).sourceName))
          true true (Img.new 1 1) r).map Prod.fst).Pairwise (fun a b => a ≠ b) :=
  claim_C7 ((Tiling.init 1 none).apply (Img.new 1 1)) (Img.new 1 1) rfl
    "tiles" none

/-! ### Claim C9: strict mean filtering -/

/-- Claim C9: `filter_tiles` yields exactly the (rect, image) pairs of the
canonical traversal (the element-wise zip of the rect and image sequences)
whose mean pixel value lies strictly between the thresholds; a tile whose
mean equals either threshold is excluded. -/
theorem claim_C9 (t : Tiling) (src : Img) (hsrc : t.source = some src)
    (lower upper : ℚ) :
    ∃ l, t.filter_tiles lower upper = .ok l ∧
      (∀ p : TileRect × Img, p ∈ l ↔
        p ∈ (t.tileRectsList src).zip (t.tileImagesList src) ∧
        lower < p.2.meanVal ∧ p.2.meanVal < upper) ∧
      (∀ p : TileRect × Img,
        p ∈ (t.tileRectsList src).zip (t.tileImagesList src) →
        (p.2.meanVal = lower ∨ p.2.meanVal = upper) → p ∉ l) := by
  refine ⟨_, by rw [Tiling.filter_tiles, hsrc], ?_, ?_⟩
  · intro p
    rw [List.mem_filter]
    simp only [decide_eq_true_eq]
  · intro p hp hmean hmem
    rw [List.mem_filter] at hmem
    have := of_decide_eq_true hmem.2
    rcases hmean with h | h
    · exact absurd this.1 (by rw [h]; exact lt_irrefl lower)
    · exact absurd this.2 (by rw [h]; exact lt_irrefl upper)

/-- Witness for C9: a 1×1 all-zero image with tileSize 1 and thresholds
(0, 1): the single tile's mean 0 equals the lower threshold. -/
theorem claim_C9_witness :
    ∃ l, ((Tiling.init 1 none).apply (Img.new 1 1)).filter_tiles 0 1 = .ok l ∧
      (∀ p : TileRect × Img, p ∈ l ↔
        p ∈ (((Tiling.init 1 none).apply (Img.new 1 1)).tileRectsList
              (Img.new 1 1)).zip
            (((Tiling.init 1 none).apply (Img.new 1 1)).tileImagesList
              (Img.new 1 1)) ∧
        0 < p.2.meanVal ∧ p.2.meanVal < 1) ∧
      (∀ p : TileRect × Img,
        p ∈ (((Tiling.init 1 none).apply (Img.new 1 1)).tileRectsList
              (Img.new 1 1)).zip
            (((Tiling.init 1 none).apply (Img.new 1 1)).tileImagesList
              (Img.new 1 1)) →
        (p.2.meanVal = 0 ∨ p.2.meanVal = 1) → p ∉ l) :=
  claim_C9 ((Tiling.init 1 none).apply (Img.new 1 1)) (Img.new 1 1) rfl 0 1

/-! ### Claim C5: identifier parsing in assemble -/

theorem idxOf?_eq_none {α : Type} [DecidableEq α] (a : α) :
    ∀ l : List α, idxOf? a l = none ↔ a ∉ l := by
  intro l
  induction l with
  | nil => simp [idxOf?]
  | cons b rest ih =>
    rw [idxOf?]
    by_cases h : b = a
    · subst h
      simp
    · rw [if_neg h]
      constructor
      · intro hnone hmem
        rcases List.mem_cons.mp hmem with rfl | hmem'
        · exact h rfl
        · exact absurd hmem' (ih.mp (Option.map_eq_none'.mp hnone))
      · intro hmem
        rw [Option.map_eq_none']
        exact ih.mpr fun hr => hmem (List.mem_cons_of_mem _ hr)

theorem mem_of_idxOf?_eq_some {α : Type} [DecidableEq α] {a : α} {l : List α}
    {i : Nat} (h : idxOf? a l = some i) : a ∈ l := by
  by_contra hmem
  rw [(idxOf?_eq_none a l).mpr hmem] at h
  exact absurd h (by simp)

theorem parseXY_eq_none_iff (ts : List String) :
    parseXY ts = none ↔ specParseFailure ts := by
  unfold parseXY specParseFailure
  cases hx : idxOf? "x" ts with
  | none =>
    constructor
    · intro _
      exact Or.inl ((idxOf?_eq_none _ ts).mp hx)
    · intro _
      cases idxOf? "y" ts <;> rfl
  | some xi =>
    cases hy : idxOf? "y" ts with
    | none =>
      constructor
      · intro _
        exact Or.inr (Or.inl ((idxOf?_eq_none _ ts).mp hy))
      · intro _
        rfl
    | some yi =>
      have hxm : "x" ∈ ts := mem_of_idxOf?_eq_some hx
      have hym : "y" ∈ ts := mem_of_idxOf?_eq_some hy
      cases hpx : pyInt? (tokenAfter ts xi) with
      | none =>
        constructor
        · intro _
          exact Or.inr (Or.inr (Or.inl hpx))
        · intro _
          show (match pyInt? (tokenAfter ts xi), pyInt? (tokenAfter ts yi) with
            | some x, some y => some (x, y)
            | _, _ => none) = (none : Option (Int × Int))
          rw [hpx]
      | some x =>
        cases hpy : pyInt? (tokenAfter ts yi) with
        | none =>
          constructor
          · intro _
            exact Or.inr (Or.inr (Or.inr hpy))
          · intro _
            show (match pyInt? (tokenAfter ts xi), pyInt? (tokenAfter ts yi) with
              | some x, some y => some (x, y)
              | _, _ => none) = (none : Option (Int × Int))
            rw [hpx, hpy]
        | some y =>
          constructor
          · intro h
            have h2 : (match pyInt? (tokenAfter ts xi), pyInt? (tokenAfter ts yi) with
              | some x, some y => some (x, y)
              | _, _ => none) = (none : Option (Int × Int)) := h
            rw [hpx, hpy] at h2
            exact absurd h2 (by simp)
          · intro h
            rcases h with h | h | h | h
            · exact absurd hxm h
            · exact absurd hym h
            · have h2 : pyInt? (tokenAfter ts xi) = none := h
              rw [h2] at hpx
              exact absurd hpx (by simp)
            · have h2 : pyInt? (tokenAfter ts yi) = none := h
              rw [h2] at hpy
              exact absurd hpy (by simp)

/-- Claim C5: for an identifier-string element of `assemble`: a `rot` or
`flip` token in the split of the extension-stripped basename makes the
element be skipped entirely (no paste, no error, processing continues with
the remaining elements); otherwise the call aborts with the `ValueError`
(the spec's `ParseError`) exactly when the token list has no `x` or no `y`
token or the token after the first `x` or `y` is not a valid integer
(`specParseFailure`); a well-formed identifier is pasted at corner
(left, top) — the code's rectangle `(left, top, left+size, top+size)`, the
decoded tile being tile-sized.  In particular
`assemble(["img_x_00100_y_00000.png", "img_x_00100_y_00000_rot_90.png"])`
pastes only the first element, at (100, 0). -/
theorem claim_C5 (dec : String → Img) (canvas : Img) (rects : List TileRect)
    (rest : List TileElem) (s : String) (t : Tiling) (src : Img)
    (hsrc : t.source = some src) :
    (parseXY (nameTokens s) = none ↔ specParseFailure (nameTokens s)) ∧
    (("rot" ∈ nameTokens s ∨ "flip" ∈ nameTokens s) →
      assembleGo dec canvas rects (TileElem.name s :: rest) =
        assembleGo dec canvas rects rest) ∧
    (¬("rot" ∈ nameTokens s ∨ "flip" ∈ nameTokens s) →
      specParseFailure (nameTokens s) →
      assembleGo dec canvas rects (TileElem.name s :: rest) =
        .error .valueError) ∧
    (¬("rot" ∈ nameTokens s ∨ "flip" ∈ nameTokens s) →
      ¬specParseFailure (nameTokens s) →
      ∃ x y, parseXY (nameTokens s) = some (x, y) ∧
        assembleGo dec canvas rects (TileElem.name s :: rest) =
          assembleGo dec (canvas.paste (dec s) x y) rects rest) ∧
    (t.assemble dec [TileElem.name "img_x_00100_y_00000.png",
        TileElem.name "img_x_00100_y_00000_rot_90.png"] "RGB" =
      .ok ((Img.new src.width src.height).paste
        (dec "img_x_00100_y_00000.png") 100 0)) := by
  refine ⟨parseXY_eq_none_iff (nameTokens s), ?_, ?_, ?_, ?_⟩
  · intro h
    rw [assembleGo, if_pos h]
  · intro hskip hfail
    rw [assembleGo, if_neg hskip, (parseXY_eq_none_iff (nameTokens s)).mpr hfail]
  · intro hskip hok
    have hne : parseXY (nameTokens s) ≠ none :=
      fun h => hok ((parseXY_eq_none_iff (nameTokens s)).mp h)
    rcases hxy : parseXY (nameTokens s) with _ | ⟨x, y⟩
    · exact absurd hxy hne
    · refine ⟨x, y, rfl, ?_⟩
      rw [assembleGo, if_neg hskip, hxy]
  · rw [Tiling.assemble, hsrc]
    rfl

/-- Witness for C5, instantiated at a concrete session and element. -/
theorem claim_C5_witness :
    (parseXY (nameTokens "img_x_00100_y_00000.png") = none ↔
      specParseFailure (nameTokens "img_x_00100_y_00000.png")) ∧
    (("rot" ∈ nameTokens "img_x_00100_y_00000.png" ∨
      "flip" ∈ nameTokens "img_x_00100_y_00000.png") →
      assembleGo (fun _ => Img.new 1 1) (Img.new 2 2) []
          (TileElem.name "img_x_00100_y_00000.png" :: []) =
        assembleGo (fun _ => Img.new 1 1) (Img.new 2 2) [] []) ∧
    (¬("rot" ∈ nameTokens "img_x_00100_y_00000.png" ∨
      "flip" ∈ nameTokens "img_x_00100_y_00000.png") →
      specParseFailure (nameTokens "img_x_00100_y_00000.png") →
      assembleGo (fun _ => Img.new 1 1) (Img.new 2 2) []
          (TileElem.name "img_x_00100_y_00000.png" :: []) =
        .error .valueError) ∧
    (¬("rot" ∈ nameTokens "img_x_00100_y_00000.png" ∨
      "flip" ∈ nameTokens "img_x_00100_y_00000.png") →
      ¬specParseFailure (nameTokens "img_x_00100_y_00000.png") →
      ∃ x y, parseXY (nameTokens "img_x_00100_y_00000.png") = some (x, y) ∧
        assembleGo (fun _ => Img.new 1 1) (Img.new 2 2) []
            (TileElem.name "img_x_00100_y_00000.png" :: []) =
          assembleGo (fun _ => Img.new 1 1)
            ((Img.new 2 2).paste ((fun _ => Img.new 1 1)
              "img_x_00100_y_00000.png") x y) [] []) ∧
    (((Tiling.init 1 none).apply (Img.new 2 2)).assemble (fun _ => Img.new 1 1)
        [TileElem.name "img_x_00100_y_00000.png",
         TileElem.name "img_x_00100_y_00000_rot_90.png"] "RGB" =
      .ok ((Img.new (Img.new 2 2).width (Img.new 2 2).height).paste
        ((fun _ => Img.new 1 1) "img_x_00100_y_00000.png") 100 0)) :=
  claim_C5 (fun _ => Img.new 1 1) (Img.new 2 2) [] []
    "img_x_00100_y_00000.png" ((Tiling.init 1 none).apply (Img.new 2 2))
    (Img.new 2 2) rfl

/-! ### Claim C3: write / assemble round trip.  Digit-string lemmas. -/

theorem digitVal?_digitChar (d : Nat) (h : d < 10) :
    digitVal? (digitChar d) = some d := by
  rw [digitChar, Nat.mod_eq_of_lt h]
  interval_cases d <;> rfl

theorem digitVal?_spec {c : Char} (h : (digitVal? c).isSome) :
    isSpaceChar c = false ∧ c ≠ '+' ∧ c ≠ '-' ∧ c ≠ '_' ∧ c ≠ '/' ∧
    c ≠ '.' ∧ c ≠ 'x' ∧ c ≠ 'y' := by
  rw [digitVal?] at h
  by_cases hc : 48 ≤ c.toNat ∧ c.toNat ≤ 57
  case neg =>
    rw [if_neg hc] at h
    exact absurd h (by simp)
  case pos =>
    have hne : ∀ a : Char, a.toNat < 48 ∨ 57 < a.toNat → c ≠ a := by
      intro a hval heq
      rw [heq] at hc
      omega
    refine ⟨?_, hne '+' (by decide), hne '-' (by decide), hne '_' (by decide),
      hne '/' (by decide), hne '.' (by decide), hne 'x' (by decide),
      hne 'y' (by decide)⟩
    rw [isSpaceChar, decide_eq_false_iff_not]
    rintro (heq | heq | heq | heq | heq | heq) <;> rw [heq] at hc <;>
      exact absurd hc (by decide)

theorem digitsValAux_append (ys : List Char) :
    ∀ (xs : List Char) (acc : Nat),
      digitsValAux acc (xs ++ ys) =
        (digitsValAux acc xs).bind fun a => digitsValAux a ys := by
  intro xs
  induction xs with
  | nil => intro acc; rfl
  | cons c rest ih =>
    intro acc
    rw [List.cons_append, digitsValAux, digitsValAux]
    cases digitVal? c with
    | none => rfl
    | some d => exact ih (acc * 10 + d)

theorem natDigitsAux_digits :
    ∀ (fuel n : Nat) (c : Char), c ∈ natDigitsAux fuel n →
      (digitVal? c).isSome := by
  intro fuel
  induction fuel with
  | zero => intro n c h; exact absurd h (by simp [natDigitsAux])
  | succ fuel ih =>
    intro n c h
    rw [natDigitsAux] at h
    by_cases hn : n = 0
    · rw [if_pos hn] at h
      exact absurd h (by simp)
    · rw [if_neg hn] at h
      rcases List.mem_append.mp h with h' | h'
      · exact ih (n / 10) c h'
      · have : c = digitChar (n % 10) := by
          rcases List.mem_singleton.mp h' with rfl
          rfl
        rw [this, digitVal?_digitChar (n % 10) (Nat.mod_lt n (by omega))]
        rfl

theorem natDigitsAux_val :
    ∀ (fuel n acc : Nat), n ≤ fuel →
      digitsValAux acc (natDigitsAux fuel n) =
        some (acc * 10 ^ (natDigitsAux fuel n).length + n) := by
  intro fuel
  induction fuel with
  | zero =>
    intro n acc h
    have : n = 0 := by omega
    subst this
    simp [natDigitsAux, digitsValAux]
  | succ fuel ih =>
    intro n acc h
    rw [natDigitsAux]
    by_cases hn : n = 0
    · subst hn
      simp [digitsValAux]
    · rw [if_neg hn]
      have hdiv : n / 10 ≤ fuel := by
        have hlt : n / 10 < n := Nat.div_lt_self (Nat.pos_of_ne_zero hn) (by omega)
        omega
      rw [digitsValAux_append, ih (n / 10) acc hdiv]
      rw [Option.some_bind]
      have hstep : ∀ (m : Nat),
          digitsValAux m [digitChar (n % 10)] = some (m * 10 + n % 10) := by
        intro m
        rw [digitsValAux, digitVal?_digitChar (n % 10) (Nat.mod_lt n (by omega))]
        rfl
      rw [hstep]
      have hlen : (natDigitsAux fuel (n / 10) ++ [digitChar (n % 10)]).length =
          (natDigitsAux fuel (n / 10)).length + 1 := by
        rw [List.length_append, List.length_singleton]
      rw [hlen, pow_succ]
      congr 1
      have hmod := Nat.div_add_mod n 10
      generalize hA : acc * 10 ^ (natDigitsAux fuel (n / 10)).length = A
      rw [← Nat.mul_assoc]
      omega

theorem pyStr_data_ne_nil (n : Nat) : (pyStr n).data ≠ [] := by
  rw [pyStr]
  by_cases hn : n = 0
  · rw [if_pos hn]
    decide
  · rw [if_neg hn]
    show natDigitsAux n n ≠ []
    cases n with
    | zero => exact absurd rfl hn
    | succ m =>
      rw [natDigitsAux, if_neg hn]
      simp

theorem pyStr_data_digits (n : Nat) :
    ∀ c ∈ (pyStr n).data, (digitVal? c).isSome := by
  rw [pyStr]
  by_cases hn : n = 0
  · rw [if_pos hn]
    decide
  · rw [if_neg hn]
    exact fun c hc => natDigitsAux_digits n n c hc

theorem digitsValAux_pyStr (n : Nat) :
    digitsValAux 0 (pyStr n).data = some n := by
  rw [pyStr]
  by_cases hn : n = 0
  · rw [if_pos hn, hn]
    rfl
  · rw [if_neg hn]
    show digitsValAux 0 (natDigitsAux n n) = some n
    rw [natDigitsAux_val n n 0 (le_refl n)]
    simp

theorem zfill5_data (s : String) :
    (zfill5 s).data = List.replicate (5 - s.data.length) '0' ++ s.data := rfl

theorem zfill5_data_ne_nil (s : String) (h : s.data ≠ []) :
    (zfill5 s).data ≠ [] := by
  rw [zfill5_data]
  intro hcontra
  exact h (List.append_eq_nil.mp hcontra).2

theorem zfill5_data_digits (s : String) (h : ∀ c ∈ s.data, (digitVal? c).isSome) :
    ∀ c ∈ (zfill5 s).data, (digitVal? c).isSome := by
  rw [zfill5_data]
  intro c hc
  rcases List.mem_append.mp hc with hc' | hc'
  · rw [List.eq_of_mem_replicate hc']
    rfl
  · exact h c hc'

theorem digitsValAux_replicate_zero (k : Nat) :
    digitsValAux 0 (List.replicate k '0') = some 0 := by
  induction k with
  | zero => rfl
  | succ k ih =>
    rw [List.replicate_succ, digitsValAux]
    exact ih

theorem digitsValAux_zfill5 (s : String) :
    digitsValAux 0 (zfill5 s).data = digitsValAux 0 s.data := by
  rw [zfill5_data, digitsValAux_append, digitsValAux_replicate_zero,
    Option.some_bind]

theorem dropWhile_eq_self_of_all_false {p : Char → Bool} :
    ∀ {cs : List Char}, (∀ c ∈ cs, p c = false) → cs.dropWhile p = cs := by
  intro cs h
  cases cs with
  | nil => rfl
  | cons c rest =>
    rw [List.dropWhile_cons, h c (by simp)]
    simp

theorem pyIntCore_digits (cs : List Char) (hne : cs ≠ [])
    (hdig : ∀ c ∈ cs, (digitVal? c).isSome) :
    pyIntCore cs = (digitsValAux 0 cs).map Int.ofNat := by
  rw [pyIntCore.eq_def]
  split
  · rename_i rest
    exact absurd rfl (digitVal?_spec (hdig '+' (by simp))).2.1
  · rename_i rest
    exact absurd rfl (digitVal?_spec (hdig '-' (by simp))).2.2.1
  · rw [if_neg hne]

theorem pyInt?_digits (cs : List Char) (hne : cs ≠ [])
    (hdig : ∀ c ∈ cs, (digitVal? c).isSome) :
    pyInt? (String.mk cs) = (digitsValAux 0 cs).map Int.ofNat := by
  have hns : ∀ c ∈ cs, isSpaceChar c = false :=
    fun c hc => (digitVal?_spec (hdig c hc)).1
  rw [pyInt?]
  have hdata : (String.mk cs).data = cs := rfl
  rw [hdata, dropWhile_eq_self_of_all_false hns,
    dropWhile_eq_self_of_all_false (fun c hc => hns c (List.mem_reverse.mp hc)),
    List.reverse_reverse]
  exact pyIntCore_digits cs hne hdig

theorem pyInt?_zfill5_pyStr (n : Nat) :
    pyInt? (zfill5 (pyStr n)) = some ((n : Int)) := by
  have h1 : zfill5 (pyStr n) = String.mk (zfill5 (pyStr n)).data := rfl
  rw [h1, pyInt?_digits _ (zfill5_data_ne_nil _ (pyStr_data_ne_nil n))
    (zfill5_data_digits _ (pyStr_data_digits n))]
  rw [digitsValAux_zfill5 _, digitsValAux_pyStr]
  rfl

/-! ### Claim C3: tokenising the filenames written by `write_tiles` -/

theorem splitOnChar_ne_nil (sep : Char) (cs : List Char) :
    splitOnChar sep cs ≠ [] := by
  cases cs with
  | nil => simp [splitOnChar]
  | cons c rest =>
    rw [splitOnChar]
    cases splitOnChar sep rest with
    | nil => simp
    | cons g gs =>
      show (if c = sep then [] :: g :: gs else (c :: g) :: gs) ≠ []
      by_cases h : c = sep
      · rw [if_pos h]; simp
      · rw [if_neg h]; simp

theorem splitOnChar_not_mem (sep : Char) :
    ∀ (cs : List Char), sep ∉ cs → splitOnChar sep cs = [cs] := by
  intro cs
  induction cs with
  | nil => intro _; rfl
  | cons c rest ih =>
    intro h
    rw [splitOnChar, ih fun hmem => h (List.mem_cons_of_mem c hmem)]
    show (if c = sep then [] :: rest :: [] else (c :: rest) :: []) = [c :: rest]
    rw [if_neg (fun hc => h (by rw [hc]; exact List.mem_cons_self sep rest))]

theorem splitOnChar_append (sep : Char) (ys : List Char) :
    ∀ (xs : List Char), sep ∉ xs →
      splitOnChar sep (xs ++ sep :: ys) = xs :: splitOnChar sep ys := by
  intro xs
  induction xs with
  | nil =>
    intro _
    rw [List.nil_append, splitOnChar]
    cases hys : splitOnChar sep ys with
    | nil => exact absurd hys (splitOnChar_ne_nil sep ys)
    | cons g gs =>
      show (if sep = sep then [] :: g :: gs else (sep :: g) :: gs) = [] :: g :: gs
      rw [if_pos rfl]
  | cons x xs ih =>
    intro h
    rw [List.cons_append, splitOnChar,
      ih fun hmem => h (List.mem_cons_of_mem x hmem)]
    show (if x = sep then [] :: xs :: splitOnChar sep ys
        else (x :: xs) :: splitOnChar sep ys) = (x :: xs) :: splitOnChar sep ys
    rw [if_neg (fun hc => h (by rw [hc]; exact List.mem_cons_self sep xs))]

theorem idxOf?_append_of_not_mem {α : Type} [DecidableEq α] (a : α)
    (ys : List α) :
    ∀ (xs : List α), a ∉ xs →
      idxOf? a (xs ++ ys) = (idxOf? a ys).map (· + xs.length) := by
  intro xs
  induction xs with
  | nil =>
    intro _
    simp
  | cons x xs ih =>
    intro h
    rw [List.cons_append, idxOf?,
      if_neg (fun hc => h (by rw [← hc]; exact List.mem_cons_self x xs)),
      ih fun hmem => h (List.mem_cons_of_mem x hmem)]
    cases idxOf? a ys with
    | none => rfl
    | some k =>
      simp only [Option.map_some', List.length_cons]
      exact congrArg some (by omega)

theorem splitextStem_ext (cs rest : List Char) (hc : '.' ∉ cs)
    (hr : '.' ∉ rest) (hall : cs.all (fun c => c = '.') = false) :
    splitextStem (cs ++ '.' :: rest) = cs := by
  rw [splitextStem]
  have hrev : (cs ++ '.' :: rest).reverse = rest.reverse ++ '.' :: cs.reverse := by
    rw [List.reverse_append, List.reverse_cons, List.append_assoc,
      List.singleton_append]
  have hidx : idxOf? '.' ((cs ++ '.' :: rest).reverse) = some rest.length := by
    rw [hrev, idxOf?_append_of_not_mem _ _ _
      (fun hm => hr (List.mem_reverse.mp hm))]
    rw [idxOf?, if_pos rfl]
    simp
  rw [hidx]
  have hlen : (cs ++ '.' :: rest).length - 1 - rest.length = cs.length := by
    rw [List.length_append, List.length_cons]
    omega
  have htake : (cs ++ '.' :: rest).take cs.length = cs := List.take_left cs _
  show (if ((cs ++ '.' :: rest).take
        ((cs ++ '.' :: rest).length - 1 - rest.length)).all
        (fun c => c = '.') then cs ++ '.' :: rest
      else (cs ++ '.' :: rest).take
        ((cs ++ '.' :: rest).length - 1 - rest.length)) = cs
  rw [hlen, htake, hall]
  rw [if_neg (by simp)]

theorem tileBaseName_data (l t : Nat) :
    (tileBaseName "" l t).data =
      '_' :: 'x' :: '_' :: ((zfill5 (pyStr l)).data ++
        '_' :: 'y' :: '_' :: (zfill5 (pyStr t)).data) := by
  rw [tileBaseName]
  rw [String.data_append, String.data_append, String.data_append,
    String.data_append]
  have h0 : ("" : String).data = [] := rfl
  have h1 : ("_x_" : String).data = ['_', 'x', '_'] := rfl
  have h2 : ("_y_" : String).data = ['_', 'y', '_'] := rfl
  rw [h0, h1, h2]
  simp [List.append_assoc]

theorem written_name_data (l t : Nat) :
    (pathJoin "tiles" (tileBaseName "" l t ++ ".png")).data =
      ['t', 'i', 'l', 'e', 's'] ++ '/' ::
        (('_' :: 'x' :: '_' :: ((zfill5 (pyStr l)).data ++
          '_' :: 'y' :: '_' :: (zfill5 (pyStr t)).data)) ++
          '.' :: ['p', 'n', 'g']) := by
  rw [pathJoin, String.data_append, String.data_append, String.data_append,
    tileBaseName_data]
  have h1 : ("tiles" : String).data = ['t', 'i', 'l', 'e', 's'] := rfl
  have h2 : ("/" : String).data = ['/'] := rfl
  have h3 : (".png" : String).data = '.' :: ['p', 'n', 'g'] := rfl
  rw [h1, h2, h3]
  simp [List.append_assoc]

theorem base_chars (l t : Nat) :
    ∀ c ∈ ('_' :: 'x' :: '_' :: ((zfill5 (pyStr l)).data ++
        '_' :: 'y' :: '_' :: (zfill5 (pyStr t)).data)),
      c = '_' ∨ c = 'x' ∨ c = 'y' ∨ (digitVal? c).isSome := by
  intro c hc
  simp only [List.mem_cons, List.mem_append] at hc
  rcases hc with rfl | rfl | rfl | (h | rfl | rfl | rfl | h)
  · exact Or.inl rfl
  · exact Or.inr (Or.inl rfl)
  · exact Or.inl rfl
  · exact Or.inr (Or.inr (Or.inr (zfill5_data_digits _ (pyStr_data_digits l) c h)))
  · exact Or.inl rfl
  · exact Or.inr (Or.inr (Or.inl rfl))
  · exact Or.inl rfl
  · exact Or.inr (Or.inr (Or.inr (zfill5_data_digits _ (pyStr_data_digits t) c h)))

theorem nameTokens_written (l t : Nat) :
    nameTokens (pathJoin "tiles" (tileBaseName "" l t ++ ".png")) =
      ["", "x", zfill5 (pyStr l), "y", zfill5 (pyStr t)] := by
  have hbm := base_chars l t
  have hnotslash : '/' ∉ (('_' :: 'x' :: '_' :: ((zfill5 (pyStr l)).data ++
      '_' :: 'y' :: '_' :: (zfill5 (pyStr t)).data)) ++ '.' :: ['p', 'n', 'g']) := by
    intro hm
    rcases List.mem_append.mp hm with hm' | hm'
    · rcases hbm '/' hm' with h | h | h | h
      · exact absurd h (by decide)
      · exact absurd h (by decide)
      · exact absurd h (by decide)
      · exact absurd h (by decide)
    · exact absurd hm' (by decide)
  have hnotdot : '.' ∉ ('_' :: 'x' :: '_' :: ((zfill5 (pyStr l)).data ++
      '_' :: 'y' :: '_' :: (zfill5 (pyStr t)).data)) := by
    intro hm
    rcases hbm '.' hm with h | h | h | h
    · exact absurd h (by decide)
    · exact absurd h (by decide)
    · exact absurd h (by decide)
    · exact absurd h (by decide)
  rw [nameTokens, written_name_data]
  have e0 := splitOnChar_append '/'
    (('_' :: 'x' :: '_' :: ((zfill5 (pyStr l)).data ++
      '_' :: 'y' :: '_' :: (zfill5 (pyStr t)).data)) ++ '.' :: ['p', 'n', 'g'])
    ['t', 'i', 'l', 'e', 's'] (by decide)
  rw [e0, splitOnChar_not_mem '/' _ hnotslash]
  have hlast : ([['t', 'i', 'l', 'e', 's'],
      ('_' :: 'x' :: '_' :: ((zfill5 (pyStr l)).data ++
        '_' :: 'y' :: '_' :: (zfill5 (pyStr t)).data)) ++
        '.' :: ['p', 'n', 'g']].getLastD []) =
      ('_' :: 'x' :: '_' :: ((zfill5 (pyStr l)).data ++
        '_' :: 'y' :: '_' :: (zfill5 (pyStr t)).data)) ++
        '.' :: ['p', 'n', 'g'] := rfl
  rw [hlast]
  rw [splitextStem_ext _ _ hnotdot (by decide) (by simp)]
  have e1 := splitOnChar_append '_'
    ('x' :: '_' :: ((zfill5 (pyStr l)).data ++
      '_' :: 'y' :: '_' :: (zfill5 (pyStr t)).data)) [] (by simp)
  rw [List.nil_append] at e1
  rw [e1]
  have e2 := splitOnChar_append '_'
    ((zfill5 (pyStr l)).data ++ '_' :: 'y' :: '_' :: (zfill5 (pyStr t)).data)
    ['x'] (by decide)
  rw [List.cons_append, List.nil_append] at e2
  rw [e2]
  have hzl_us : '_' ∉ (zfill5 (pyStr l)).data := by
    intro hm
    exact absurd rfl
      (digitVal?_spec (zfill5_data_digits _ (pyStr_data_digits l) '_' hm)).2.2.2.1
  have hzt_us : '_' ∉ (zfill5 (pyStr t)).data := by
    intro hm
    exact absurd rfl
      (digitVal?_spec (zfill5_data_digits _ (pyStr_data_digits t) '_' hm)).2.2.2.1
  have e3 := splitOnChar_append '_'
    ('y' :: '_' :: (zfill5 (pyStr t)).data) ((zfill5 (pyStr l)).data) hzl_us
  rw [e3]
  have e4 := splitOnChar_append '_' ((zfill5 (pyStr t)).data) ['y'] (by decide)
  rw [List.cons_append, List.nil_append] at e4
  rw [e4]
  rw [splitOnChar_not_mem '_' _ hzt_us]
  rfl

theorem digit_string_ne (s : String)
    (hdig : ∀ c ∈ s.data, (digitVal? c).isSome) :
    s ≠ "rot" ∧ s ≠ "flip" ∧ s ≠ "x" ∧ s ≠ "y" := by
  refine ⟨?_, ?_, ?_, ?_⟩ <;> intro h <;> rw [h] at hdig
  · exact absurd (hdig 'r' (by decide)) (by decide)
  · exact absurd (hdig 'f' (by decide)) (by decide)
  · exact absurd (hdig 'x' (by decide)) (by decide)
  · exact absurd (hdig 'y' (by decide)) (by decide)

theorem written_tokens_no_marker (l t : Nat) :
    ¬("rot" ∈ ["", "x", zfill5 (pyStr l), "y", zfill5 (pyStr t)] ∨
      "flip" ∈ ["", "x", zfill5 (pyStr l), "y", zfill5 (pyStr t)]) := by
  have hl := digit_string_ne (zfill5 (pyStr l))
    (zfill5_data_digits _ (pyStr_data_digits l))
  have ht := digit_string_ne (zfill5 (pyStr t))
    (zfill5_data_digits _ (pyStr_data_digits t))
  intro h
  rcases h with h | h <;> simp only [List.mem_cons, List.not_mem_nil] at h
  · rcases h with h | h | h | h | h | h
    · exact absurd h.symm (by decide)
    · exact absurd h.symm (by decide)
    · exact absurd h.symm hl.1
    · exact absurd h.symm (by decide)
    · exact absurd h.symm ht.1
    · exact h
  · rcases h with h | h | h | h | h | h
    · exact absurd h.symm (by decide)
    · exact absurd h.symm (by decide)
    · exact absurd h.symm hl.2.1
    · exact absurd h.symm (by decide)
    · exact absurd h.symm ht.2.1
    · exact h

theorem parseXY_written_tokens (l t : Nat) :
    parseXY ["", "x", zfill5 (pyStr l), "y", zfill5 (pyStr t)] =
      some ((l : Int), (t : Int)) := by
  have hl := digit_string_ne (zfill5 (pyStr l))
    (zfill5_data_digits _ (pyStr_data_digits l))
  have hx : idxOf? "x" ["", "x", zfill5 (pyStr l), "y", zfill5 (pyStr t)] =
      some 1 := by
    rw [idxOf?, if_neg (by decide), idxOf?, if_pos rfl]
    rfl
  have hy : idxOf? "y" ["", "x", zfill5 (pyStr l), "y", zfill5 (pyStr t)] =
      some 3 := by
    rw [idxOf?, if_neg (by decide), idxOf?, if_neg (by decide),
      idxOf?, if_neg hl.2.2.2, idxOf?, if_pos rfl]
    rfl
  rw [parseXY, hx, hy]
  show (match pyInt? (tokenAfter
        ["", "x", zfill5 (pyStr l), "y", zfill5 (pyStr t)] 1),
      pyInt? (tokenAfter
        ["", "x", zfill5 (pyStr l), "y", zfill5 (pyStr t)] 3) with
    | some x, some y => some (x, y)
    | _, _ => none) = some ((l : Int), (t : Int))
  have h1 : pyInt? (tokenAfter
      ["", "x", zfill5 (pyStr l), "y", zfill5 (pyStr t)] 1) = some ((l : Int)) :=
    pyInt?_zfill5_pyStr l
  have h2 : pyInt? (tokenAfter
      ["", "x", zfill5 (pyStr l), "y", zfill5 (pyStr t)] 3) = some ((t : Int)) :=
    pyInt?_zfill5_pyStr t
  rw [h1, h2]

theorem parse_written_name (l t : Nat) :
    parseXY (nameTokens (pathJoin "tiles" (tileBaseName "" l t ++ ".png"))) =
      some ((l : Int), (t : Int)) := by
  rw [nameTokens_written]
  exact parseXY_written_tokens l t

theorem written_name_inj {l t l' t' : Nat}
    (h : pathJoin "tiles" (tileBaseName "" l t ++ ".png") =
      pathJoin "tiles" (tileBaseName "" l' t' ++ ".png")) :
    l = l' ∧ t = t' := by
  have h1 := parse_written_name l t
  have h2 := parse_written_name l' t'
  rw [h] at h1
  rw [h2] at h1
  have h3 := Option.some.inj h1
  have hfst : ((l' : Int), (t' : Int)).1 = ((l : Int), (t : Int)).1 :=
    congrArg Prod.fst h3
  have hsnd : ((l' : Int), (t' : Int)).2 = ((l : Int), (t : Int)).2 :=
    congrArg Prod.snd h3
  simp only [Int.natCast_inj] at hfst hsnd
  exact ⟨hfst.symm, hsnd.symm⟩

/-! ### Claim C3: pasting machinery -/

theorem assembleGo_names (dec : String → Img) (fx fy : String → Int) :
    ∀ (es : List String) (canvas : Img) (rects : List TileRect),
      (∀ s ∈ es, ¬("rot" ∈ nameTokens s ∨ "flip" ∈ nameTokens s) ∧
        parseXY (nameTokens s) = some (fx s, fy s)) →
      assembleGo dec canvas rects (es.map TileElem.name) =
        .ok (pasteSeq canvas (es.map fun s => (fx s, fy s, dec s))) := by
  intro es
  induction es with
  | nil => intro canvas rects _; rfl
  | cons s rest ih =>
    intro canvas rects h
    rw [List.map_cons, assembleGo, if_neg (h s (by simp)).1, (h s (by simp)).2]
    show assembleGo dec (canvas.paste (dec s) (fx s) (fy s)) rects
        (List.map TileElem.name rest) =
      Except.ok (pasteSeq canvas
        (List.map (fun s => (fx s, fy s, dec s)) (s :: rest)))
    rw [ih (canvas.paste (dec s) (fx s) (fy s)) rects
      fun s' hs' => h s' (List.mem_cons_of_mem s hs')]
    rfl

theorem pasteSeq_width (ops : List (Int × Int × Img)) :
    ∀ canvas : Img, (pasteSeq canvas ops).width = canvas.width := by
  induction ops with
  | nil => intro canvas; rfl
  | cons op rest ih => intro canvas; exact ih _

theorem pasteSeq_height (ops : List (Int × Int × Img)) :
    ∀ canvas : Img, (pasteSeq canvas ops).height = canvas.height := by
  induction ops with
  | nil => intro canvas; rfl
  | cons op rest ih => intro canvas; exact ih _

theorem paste_pix_of_covers {canvas img : Img} {l t : Int} {x y : Nat}
    (h : pasteCovers (l, t, img) x y) :
    (canvas.paste img l t).pix x y = pasteValAt (l, t, img) x y := by
  rw [Img.paste]
  exact if_pos ⟨h.1, h.2.1, h.2.2.1, h.2.2.2⟩

theorem paste_pix_of_not_covers {canvas img : Img} {l t : Int} {x y : Nat}
    (h : ¬pasteCovers (l, t, img) x y) :
    (canvas.paste img l t).pix x y = canvas.pix x y := by
  rw [Img.paste]
  exact if_neg fun hc => h ⟨hc.1, hc.2.1, hc.2.2.1, hc.2.2.2⟩

theorem pasteSeq_pix_of_no_cover {x y : Nat} :
    ∀ (ops : List (Int × Int × Img)) (canvas : Img),
      (∀ op ∈ ops, ¬pasteCovers op x y) →
      (pasteSeq canvas ops).pix x y = canvas.pix x y := by
  intro ops
  induction ops with
  | nil => intro canvas _; rfl
  | cons op rest ih =>
    intro canvas h
    show (pasteSeq (canvas.paste op.2.2 op.1 op.2.1) rest).pix x y = canvas.pix x y
    rw [ih _ fun op' hop' => h op' (List.mem_cons_of_mem op hop')]
    exact paste_pix_of_not_covers (h op (by simp))

theorem pasteSeq_pix {x y : Nat} {v : Nat} :
    ∀ (ops : List (Int × Int × Img)) (canvas : Img),
      (∃ op ∈ ops, pasteCovers op x y) →
      (∀ op ∈ ops, pasteCovers op x y → pasteValAt op x y = v) →
      (pasteSeq canvas ops).pix x y = v := by
  intro ops
  induction ops with
  | nil =>
    intro canvas hex _
    rcases hex with ⟨op, hop, _⟩
    exact absurd hop (by simp)
  | cons op rest ih =>
    intro canvas hex hval
    show (pasteSeq (canvas.paste op.2.2 op.1 op.2.1) rest).pix x y = v
    by_cases hrest : ∃ op' ∈ rest, pasteCovers op' x y
    · exact ih _ hrest fun op' hop' hc =>
        hval op' (List.mem_cons_of_mem op hop') hc
    · have hcov : pasteCovers op x y := by
        rcases hex with ⟨op', hop', hc⟩
        rcases List.mem_cons.mp hop' with rfl | hop''
        · exact hc
        · exact absurd ⟨op', hop'', hc⟩ hrest
      rw [pasteSeq_pix_of_no_cover rest _
        fun op' hop' hc => hrest ⟨op', hop', hc⟩]
      rw [show op = (op.1, op.2.1, op.2.2) from rfl] at hcov ⊢
      rw [paste_pix_of_covers hcov]
      exact hval op (by simp) (by exact hcov)

theorem lookup_map_fst (g : TileRect → String) (h : TileRect → Img) :
    ∀ (rs : List TileRect) (r : TileRect), r ∈ rs →
      ∃ r', r' ∈ rs ∧ g r' = g r ∧
        ((rs.map fun a => (g a, h a)).lookup (g r)) = some (h r') := by
  intro rs
  induction rs with
  | nil => intro r hr; exact absurd hr (by simp)
  | cons a rest ih =>
    intro r hr
    by_cases heq : g r = g a
    · refine ⟨a, by simp, heq.symm, ?_⟩
      rw [List.map_cons, List.lookup]
      have hb : (g r == g a) = true := beq_iff_eq.mpr heq
      rw [hb]
    · have hr' : r ∈ rest := by
        rcases List.mem_cons.mp hr with rfl | hmem
        · exact absurd rfl heq
        · exact hmem
      rcases ih r hr' with ⟨r', hr'', hg, hl⟩
      refine ⟨r', List.mem_cons_of_mem a hr'', hg, ?_⟩
      rw [List.map_cons, List.lookup]
      have hb : (g r == g a) = false := beq_eq_false_iff_ne.mpr heq
      rw [hb]
      exact hl

theorem flatMap_singleton {α β : Type} (g : α → β) :
    ∀ l : List α, (l.flatMap fun x => [g x]) = l.map g := by
  intro l
  induction l with
  | nil => rfl
  | cons a rest ih => rw [List.flatMap_cons, ih, List.map_cons, List.singleton_append]

theorem tileRectsList_shape (t : Tiling) (src : Img) :
    ∀ r ∈ t.tileRectsList src,
      r.right = r.left + t.size ∧ r.bottom = r.top + t.size := by
  intro r hr
  rw [Tiling.tileRectsList] at hr
  rcases List.mem_flatMap.mp hr with ⟨top, _, hr'⟩
  rcases List.mem_map.mp hr' with ⟨left, _, hrect⟩
  rw [← hrect]
  exact ⟨rfl, rfl⟩

theorem tileRectsList_closed (t : Tiling) (src : Img) (a b : Nat)
    (hs : 1 ≤ t.stride) (hw : src.width = a * t.stride)
    (hh : src.height = b * t.stride) :
    t.tileRectsList src = (List.range b).flatMap fun j =>
      (List.range a).map fun i =>
        ⟨i * t.stride, j * t.stride, i * t.stride + t.size,
          j * t.stride + t.size⟩ := by
  rw [Tiling.tileRectsList, hw, hh, strideList_mul _ _ hs, strideList_mul _ _ hs]
  rw [List.flatMap_map]
  simp only [List.map_map]
  rfl

/-- Claim C3: slicing a W×H image (W = a·S, H = b·S, all positive) with
tileSize = stride = S, writing all tiles with `write_tiles`, and calling
`assemble` on the written filenames (decoded by reading back the written
file store) returns a canvas of the original size whose pixels equal the
original image exactly. -/
theorem claim_C3 (S a b : Nat) (hS : 1 ≤ S) (ha : 1 ≤ a) (hb : 1 ≤ b)
    (O : Img) (hW : O.width = a * S) (hH : O.height = b * S)
    (files : List (String × Img))
    (hfiles : ((Tiling.init S none).apply O).write_tiles "tiles" false false
      none = .ok files) :
    ∃ R, ((Tiling.init S none).apply O).assemble (lookupDec files)
        (files.map fun f => TileElem.name f.1) "RGB" = .ok R ∧
      R.width = O.width ∧ R.height = O.height ∧
      ∀ x y, x < O.width → y < O.height → R.pix x y = O.pix x y := by
  have hSpos : 0 < S := hS
  have hstr : ((Tiling.init S none).apply O).stride = S := rfl
  have hsz : ((Tiling.init S none).apply O).size = S := rfl
  have hrects_closed : ((Tiling.init S none).apply O).tileRectsList O =
      (List.range b).flatMap fun j => (List.range a).map fun i =>
        (⟨i * S, j * S, i * S + S, j * S + S⟩ : TileRect) := by
    have h := tileRectsList_closed ((Tiling.init S none).apply O) O a b
      (by rw [hstr]; exact hS) (by rw [hstr]; exact hW) (by rw [hstr]; exact hH)
    rw [hstr, hsz] at h
    exact h
  have hcoords : ∀ r ∈ ((Tiling.init S none).apply O).tileRectsList O,
      ∃ i, i < a ∧ ∃ j, j < b ∧ r.left = i * S ∧ r.top = j * S := by
    intro r hr
    rw [hrects_closed] at hr
    rcases List.mem_flatMap.mp hr with ⟨j, hj, hr2⟩
    rcases List.mem_map.mp hr2 with ⟨i, hi, hrect⟩
    exact ⟨i, List.mem_range.mp hi, j, List.mem_range.mp hj,
      by rw [← hrect], by rw [← hrect]⟩
  have hshape : ∀ r ∈ ((Tiling.init S none).apply O).tileRectsList O,
      r.right = r.left + S ∧ r.bottom = r.top + S := by
    intro r hr
    have h := tileRectsList_shape ((Tiling.init S none).apply O) O r hr
    rw [hsz] at h
    exact h
  have hfe : files = (((Tiling.init S none).apply O).tileRectsList O).map
      fun r => (writtenName "tiles" "" r, O.crop r) := by
    have hw0 : ((Tiling.init S none).apply O).write_tiles "tiles" false false
        none = Except.ok ((((Tiling.init S none).apply O).tileRectsList O).flatMap
          (perTileFiles "tiles" "" false false O)) := rfl
    rw [hw0] at hfiles
    have hinj := Except.ok.inj hfiles
    rw [← hinj]
    have hsingle : ∀ l : List TileRect,
        l.flatMap (perTileFiles "tiles" "" false false O) =
          l.map fun r => (writtenName "tiles" "" r, O.crop r) := by
      intro l
      induction l with
      | nil => rfl
      | cons rr rest ih =>
        rw [List.flatMap_cons, ih]
        rfl
    exact hsingle _
  have hdec : ∀ r ∈ ((Tiling.init S none).apply O).tileRectsList O,
      ∃ r', r' ∈ ((Tiling.init S none).apply O).tileRectsList O ∧
        lookupDec files (writtenName "tiles" "" r) = O.crop r' ∧
        r'.left = r.left ∧ r'.top = r.top := by
    intro r hr
    rcases lookup_map_fst (fun r => writtenName "tiles" "" r)
      (fun r => O.crop r) (((Tiling.init S none).apply O).tileRectsList O)
      r hr with ⟨r', hr', hg, hl⟩
    have hco : r'.left = r.left ∧ r'.top = r.top := written_name_inj hg
    refine ⟨r', hr', ?_, hco.1, hco.2⟩
    show (files.lookup (writtenName "tiles" "" r)).getD (Img.new 0 0) = O.crop r'
    rw [hfe, hl]
    rfl
  have hwidthS : ∀ r ∈ ((Tiling.init S none).apply O).tileRectsList O,
      (lookupDec files (writtenName "tiles" "" r)).width = S ∧
      (lookupDec files (writtenName "tiles" "" r)).height = S := by
    intro r hr
    rcases hdec r hr with ⟨r', hr', hdecEq, _, _⟩
    rcases hshape r' hr' with ⟨hs1, hs2⟩
    rw [hdecEq]
    constructor
    · show r'.right - r'.left = S
      rw [hs1]
      omega
    · show r'.bottom - r'.top = S
      rw [hs2]
      omega
  have hrun : ((Tiling.init S none).apply O).assemble (lookupDec files)
      (files.map fun f => TileElem.name f.1) "RGB" =
      .ok (pasteSeq (Img.new O.width O.height)
        ((((Tiling.init S none).apply O).tileRectsList O).map fun r =>
          ((r.left : Int), (r.top : Int),
            lookupDec files (writtenName "tiles" "" r)))) := by
    have h1 : ((Tiling.init S none).apply O).assemble (lookupDec files)
        (files.map fun f => TileElem.name f.1) "RGB" =
        assembleGo (lookupDec files) (Img.new O.width O.height)
          (((Tiling.init S none).apply O).tileRectsList O)
          (files.map fun f => TileElem.name f.1) := rfl
    rw [h1]
    have h2 : files.map (fun f => TileElem.name f.1) =
        ((((Tiling.init S none).apply O).tileRectsList O).map
          fun r => writtenName "tiles" "" r).map TileElem.name := by
      rw [hfe, List.map_map, List.map_map]
      rfl
    rw [h2]
    rw [assembleGo_names (lookupDec files)
      (fun s => ((parseXY (nameTokens s)).getD (0, 0)).1)
      (fun s => ((parseXY (nameTokens s)).getD (0, 0)).2)
      ((((Tiling.init S none).apply O).tileRectsList O).map
        fun r => writtenName "tiles" "" r)
      (Img.new O.width O.height)
      (((Tiling.init S none).apply O).tileRectsList O)
      ?_]
    · refine congrArg Except.ok (congrArg (pasteSeq _) ?_)
      rw [List.map_map]
      refine List.map_congr_left fun r hr => ?_
      have hp : parseXY (nameTokens (writtenName "tiles" "" r)) =
          some ((r.left : Int), (r.top : Int)) :=
        parse_written_name r.left r.top
      show (((parseXY (nameTokens (writtenName "tiles" "" r))).getD (0, 0)).1,
        ((parseXY (nameTokens (writtenName "tiles" "" r))).getD (0, 0)).2,
        lookupDec files (writtenName "tiles" "" r)) =
        ((r.left : Int), (r.top : Int), lookupDec files (writtenName "tiles" "" r))
      rw [hp]
      rfl
    · intro s hs
      rcases List.mem_map.mp hs with ⟨r, hr, rfl⟩
      constructor
      · have hnt : nameTokens (writtenName "tiles" "" r) =
            ["", "x", zfill5 (pyStr r.left), "y", zfill5 (pyStr r.top)] :=
          nameTokens_written r.left r.top
        rw [hnt]
        exact written_tokens_no_marker r.left r.top
      · have hp : parseXY (nameTokens (writtenName "tiles" "" r)) =
            some ((r.left : Int), (r.top : Int)) :=
          parse_written_name r.left r.top
        rw [hp]
        show some ((r.left : Int), (r.top : Int)) =
          some (((parseXY (nameTokens (writtenName "tiles" "" r))).getD (0, 0)).1,
            ((parseXY (nameTokens (writtenName "tiles" "" r))).getD (0, 0)).2)
        rw [hp]
        rfl
  refine ⟨_, hrun, ?_, ?_, ?_⟩
  · exact pasteSeq_width _ _
  · exact pasteSeq_height _ _
  · intro x y hx hy
    have hx' : x < a * S := by rw [← hW]; exact hx
    have hy' : y < b * S := by rw [← hH]; exact hy
    have hxa : x / S < a := (Nat.div_lt_iff_lt_mul hSpos).mpr hx'
    have hyb : y / S < b := (Nat.div_lt_iff_lt_mul hSpos).mpr hy'
    have hr0 : (⟨x / S * S, y / S * S, x / S * S + S, y / S * S + S⟩ :
        TileRect) ∈ ((Tiling.init S none).apply O).tileRectsList O := by
      rw [hrects_closed]
      exact List.mem_flatMap.mpr ⟨y / S, List.mem_range.mpr hyb,
        List.mem_map.mpr ⟨x / S, List.mem_range.mpr hxa, rfl⟩⟩
    have hkey : ∀ r ∈ ((Tiling.init S none).apply O).tileRectsList O,
        pasteCovers ((r.left : Int), (r.top : Int),
          lookupDec files (writtenName "tiles" "" r)) x y →
        pasteValAt ((r.left : Int), (r.top : Int),
          lookupDec files (writtenName "tiles" "" r)) x y = O.pix x y := by
      intro r hr hcov
      rcases hdec r hr with ⟨r', hr', hdecEq, hl', ht'⟩
      rcases hwidthS r hr with ⟨hwid, hhei⟩
      rcases hcov with ⟨hc1, hc2, hc3, hc4⟩
      have hc1' : (r.left : Int) ≤ (x : Int) := hc1
      have hlx : r.left ≤ x := by exact_mod_cast hc1'
      have hc2' : (x : Int) < (r.left : Int) +
          ((lookupDec files (writtenName "tiles" "" r)).width : Int) := hc2
      have hxl : x < r.left + S := by
        rw [hwid] at hc2'
        exact_mod_cast hc2'
      have hc3' : (r.top : Int) ≤ (y : Int) := hc3
      have hty : r.top ≤ y := by exact_mod_cast hc3'
      have hc4' : (y : Int) < (r.top : Int) +
          ((lookupDec files (writtenName "tiles" "" r)).height : Int) := hc4
      have hyt : y < r.top + S := by
        rw [hhei] at hc4'
        exact_mod_cast hc4'
      show (lookupDec files (writtenName "tiles" "" r)).pix
        ((x : Int) - (r.left : Int)).toNat ((y : Int) - (r.top : Int)).toNat =
        O.pix x y
      rw [hdecEq]
      have htn1 : ((x : Int) - (r.left : Int)).toNat = x - r.left := by omega
      have htn2 : ((y : Int) - (r.top : Int)).toNat = y - r.top := by omega
      rw [htn1, htn2]
      show (if r'.left + (x - r.left) < O.width ∧ r'.top + (y - r.top) < O.height
        then O.pix (r'.left + (x - r.left)) (r'.top + (y - r.top)) else 0) =
        O.pix x y
      have hxe : r'.left + (x - r.left) = x := by rw [hl']; omega
      have hye : r'.top + (y - r.top) = y := by rw [ht']; omega
      rw [hxe, hye, if_pos ⟨hx, hy⟩]
    have hex : pasteCovers (((x / S * S : Nat) : Int), ((y / S * S : Nat) : Int),
        lookupDec files (writtenName "tiles" ""
          ⟨x / S * S, y / S * S, x / S * S + S, y / S * S + S⟩)) x y := by
      rcases hwidthS _ hr0 with ⟨hwid, hhei⟩
      have hx2 : x < x / S * S + S := by
        calc x = x / S * S + x % S := (Nat.div_add_mod' x S).symm
          _ < x / S * S + S := Nat.add_lt_add_left (Nat.mod_lt x hSpos) _
      have hy2 : y < y / S * S + S := by
        calc y = y / S * S + y % S := (Nat.div_add_mod' y S).symm
          _ < y / S * S + S := Nat.add_lt_add_left (Nat.mod_lt y hSpos) _
      refine ⟨?_, ?_, ?_, ?_⟩
      · show ((x / S * S : Nat) : Int) ≤ (x : Int)
        exact_mod_cast Nat.div_mul_le_self x S
      · show (x : Int) < ((x / S * S : Nat) : Int) +
          ((lookupDec files (writtenName "tiles" ""
            ⟨x / S * S, y / S * S, x / S * S + S, y / S * S + S⟩)).width : Int)
        rw [hwid]
        exact_mod_cast hx2
      · show ((y / S * S : Nat) : Int) ≤ (y : Int)
        exact_mod_cast Nat.div_mul_le_self y S
      · show (y : Int) < ((y / S * S : Nat) : Int) +
          ((lookupDec files (writtenName "tiles" ""
            ⟨x / S * S, y / S * S, x / S * S + S, y / S * S + S⟩)).height : Int)
        rw [hhei]
        exact_mod_cast hy2
    refine pasteSeq_pix _ _ ⟨_, List.mem_map.mpr ⟨_, hr0, rfl⟩, hex⟩ ?_
    intro op hop hcov
    rcases List.mem_map.mp hop with ⟨r, hr, rfl⟩
    exact hkey r hr hcov

/-- Witness for C3: a 1×1 image, S = 1; the single written tile reassembles
to the original. -/
theorem claim_C3_witness :
    ∃ R, ((Tiling.init 1 none).apply (Img.new 1 1)).assemble
        (lookupDec [(pathJoin "tiles" (tileBaseName "" 0 0 ++ ".png"),
          Img.crop (Img.new 1 1) ⟨0, 0, 1, 1⟩)])
        (([(pathJoin "tiles" (tileBaseName "" 0 0 ++ ".png"),
          Img.crop (Img.new 1 1) ⟨0, 0, 1, 1⟩)]).map fun f => TileElem.name f.1)
        "RGB" = .ok R ∧
      R.width = (Img.new 1 1).width ∧ R.height = (Img.new 1 1).height ∧
      ∀ x y, x < (Img.new 1 1).width → y < (Img.new 1 1).height →
        R.pix x y = (Img.new 1 1).pix x y :=
  claim_C3 1 1 1 (by decide) (by decide) (by decide) (Img.new 1 1) rfl rfl
    [(pathJoin "tiles" (tileBaseName "" 0 0 ++ ".png"),
      Img.crop (Img.new 1 1) ⟨0, 0, 1, 1⟩)] rfl
